import Mathlib

set_option autoImplicit false

/-!
Verification of the BWLOVERS-AI recommendation service
(`bw-ai/insurance_recommender.py` and `bw-ai/main.py`) against its
natural-language specification.

The Python code is shallowly embedded: Python strings are `List Char`,
dynamic Python values are the inductive `PyVal`, and code that can raise is
modelled in `Except PyErr`.  Standard-library collaborators that the spec
treats as opaque (`json.loads`, `uuid.uuid4`) are passed in as parameters.
-/

namespace BWAI

/-- Python strings are modelled as lists of unicode code points. -/
abbrev Str := List Char

/-- Turn a Lean string literal into the model string type. -/
def S (s : String) : Str := s.data

/-- The Python exception classes the modelled code can raise. -/
inductive PyErr where
  | typeError
  | valueError
  | attributeError
  | indexError
deriving Repr, DecidableEq

/-- Dynamic Python values, as far as the embedded code needs them:
`None`, booleans, integers, strings, lists, dicts (association lists with
string keys, as produced by `json.loads`) and `datetime.date` objects. -/
inductive PyVal where
  | none
  | bool (b : Bool)
  | int (n : Int)
  | str (s : Str)
  | list (xs : List PyVal)
  | dict (kvs : List (Str × PyVal))
  | date (y m d : Int)

/-- Python truthiness (`bool(v)`), total on the modelled values. -/
def pyTruthy : PyVal → Bool
  | .none => false
  | .bool b => b
  | .int n => n != 0
  | .str s => !s.isEmpty
  | .list xs => !xs.isEmpty
  | .dict kvs => !kvs.isEmpty
  | .date _ _ _ => true

/-- Fuel-indexed worker for `pyReplace`.  Every step consumes at least one
character of `s`, so fuel `s.length` always suffices; the fuel only makes
the recursion structural. -/
def pyReplaceAux (pat rep : Str) : Nat → Str → Str
  | 0, s => s
  | fuel + 1, s =>
    if pat ≠ [] ∧ pat <+: s then
      rep ++ pyReplaceAux pat rep fuel (s.drop pat.length)
    else
      match s with
      | [] => []
      | c :: t => c :: pyReplaceAux pat rep fuel t

/-- Python `s.replace(pat, rep)`: non-overlapping left-to-right global
substring replacement.  (Python's empty-pattern corner case, which
interleaves `rep` between characters, is never exercised by the repository
and is modelled as the identity.) -/
def pyReplace (s pat rep : Str) : Str := pyReplaceAux pat rep s.length s

/-- Python `str.strip()` with no argument: remove leading and trailing
whitespace. -/
def stripChars (s : Str) : Str :=
  ((s.dropWhile Char.isWhitespace).reverse.dropWhile Char.isWhitespace).reverse

/-- Decimal digit character for `n < 10`. -/
def digitChar (n : Nat) : Char := Char.ofNat (48 + n)

/-- Fuel-indexed worker for `natDigits`; the quotient shrinks at every
step, so fuel `n + 1` always suffices. -/
def natDigitsAux : Nat → Nat → Str
  | 0, _ => []
  | fuel + 1, n =>
    if n < 10 then [digitChar n]
    else natDigitsAux fuel (n / 10) ++ [digitChar (n % 10)]

/-- Decimal digit string of a natural number (Python `str` on a
non-negative `int`). -/
def natDigits (n : Nat) : Str := natDigitsAux (n + 1) n

/-- Python `str` on an `int`. -/
def intStr (i : Int) : Str :=
  if i < 0 then '-' :: natDigits i.natAbs else natDigits i.toNat

/-- Numeric value of a decimal digit character. -/
def digitVal (c : Char) : Nat := c.toNat - 48

/-- Value of a string of decimal digit characters. -/
def digitsValNat (s : Str) : Nat := s.foldl (fun a c => 10 * a + digitVal c) 0

/-- Python `int(s)` on a string: strip whitespace, optional sign, decimal
digits, otherwise `ValueError`.  (Underscore digit grouping and non-ASCII
digits are not modelled; the repository only meets plain decimal forms.) -/
def parseIntStr (s : Str) : Except PyErr Int :=
  match stripChars s with
  | [] => .error .valueError
  | c :: rest =>
    if c = '-' then
      if rest ≠ [] ∧ rest.all Char.isDigit then .ok (-(digitsValNat rest : Int))
      else .error .valueError
    else if c = '+' then
      if rest ≠ [] ∧ rest.all Char.isDigit then .ok (digitsValNat rest : Int)
      else .error .valueError
    else if (c :: rest).all Char.isDigit then .ok (digitsValNat (c :: rest) : Int)
    else .error .valueError

/-- Python `int(v)` on a dynamic value (floats are not modelled). -/
def pyToInt : PyVal → Except PyErr Int
  | .int n => .ok n
  | .bool b => .ok (if b then 1 else 0)
  | .str s => parseIntStr s
  | _ => .error .typeError

/-- Lookup in a modelled Python dict with a default
(`dict.get(k, default)` applied to a dict we know is a dict). -/
def assocGet (kvs : List (Str × PyVal)) (k : Str) : Option PyVal :=
  (kvs.find? (fun kv => kv.1 == k)).map (fun kv => kv.2)

/-- Python `v.get(k, default)`: raises `AttributeError` unless `v` is a
dict. -/
def pyDictGet (v : PyVal) (k : Str) (dflt : PyVal) : Except PyErr PyVal :=
  match v with
  | .dict kvs => .ok ((assocGet kvs k).getD dflt)
  | _ => .error .attributeError

/-- Python `v.strip()`: raises `AttributeError` unless `v` is a string. -/
def pyStrip (v : PyVal) : Except PyErr Str :=
  match v with
  | .str s => .ok (stripChars s)
  | _ => .error .attributeError

/-- Python iteration `for x in v`: lists yield their elements, strings
yield 1-character strings, dicts yield their keys; other values raise
`TypeError`. -/
def pyIter : PyVal → Except PyErr (List PyVal)
  | .list xs => .ok xs
  | .str s => .ok (s.map (fun c => .str [c]))
  | .dict kvs => .ok (kvs.map (fun kv => .str kv.1))
  | _ => .error .typeError

/-- Python slicing `v[:3]`: defined for lists and strings (a sliced string
then iterates as 1-character strings), `TypeError` otherwise — in
particular dicts are not sliceable. -/
def pySliceTo3 : PyVal → Except PyErr (List PyVal)
  | .list xs => .ok (xs.take 3)
  | .str s => .ok ((s.take 3).map (fun c => .str [c]))
  | _ => .error .typeError

/-- Python `repr(v)` for the modelled values. -/
def pyRepr : PyVal → Str
  | .none => S "None"
  | .bool true => S "True"
  | .bool false => S "False"
  | .int n => intStr n
  | .str s => Char.ofNat 39 :: (s ++ [Char.ofNat 39])
  | .date y m d =>
    S "datetime.date(" ++ intStr y ++ S ", " ++ intStr m ++ S ", " ++ intStr d ++ S ")"
  | .list xs =>
    Char.ofNat 91 :: (List.intercalate (S ", ") (xs.attach.map (fun x => pyRepr x.1)) ++ [Char.ofNat 93])
  | .dict kvs =>
    Char.ofNat 123 ::
      (List.intercalate (S ", ")
        (kvs.attach.map (fun kv => (Char.ofNat 39 :: (kv.1.1 ++ [Char.ofNat 39])) ++ S ": " ++ pyRepr kv.1.2))
        ++ [Char.ofNat 125])
decreasing_by
  · have := List.sizeOf_lt_of_mem x.2
    simp only [PyVal.list.sizeOf_spec]
    omega
  · have h1 := List.sizeOf_lt_of_mem kv.2
    have h2 : sizeOf kv.1.2 < sizeOf kv.1 := by
      obtain ⟨a, b⟩ := kv.1
      simp only [Prod.mk.sizeOf_spec]
      omega
    simp only [PyVal.dict.sizeOf_spec]
    omega

/-- Python `str(v)`. -/
def pyStr (v : PyVal) : Str :=
  match v with
  | .str s => s
  | v => pyRepr v

/-- Equality test between a dynamic value and a string literal
(Python `==`; values of other types never equal a string). -/
def pyEqStr (v : PyVal) (s : Str) : Bool :=
  match v with
  | .str t => t == s
  | _ => false

/-! ## `insurance_recommender.py`: insurer-name extraction and heuristics -/

/-- `INSURER_NAMES`: the fixed enumerated list of known insurer names. -/
def INSURER_NAMES : List Str :=
  [S "삼성화재", S "현대해상", S "DB손해보험", S "KB손해보험", S "메리츠화재",
   S "한화손해보험", S "흥국화재", S "롯데손해보험", S "MG손해보험"]

/-- `extract_insurer_name`: the first known insurer name occurring as a
substring of the text; empty when the input is falsy or no name matches. -/
def extract_insurer_name (text : Str) : Str :=
  if text = [] then []
  else
    match INSURER_NAMES.find? (fun n => decide (n <:+: text)) with
    | Option.some n => n
    | Option.none => []

/-- Keyword set of `looks_like_plan_name`. -/
def PLAN_KEYWORDS : List Str :=
  [S "무배당", S "다이렉트", S "해약환급금", S "보험", S "형", S "보장"]

/-- Keyword set of `looks_like_contract_name`. -/
def CONTRACT_KEYWORDS : List Str :=
  [S "특약", S "특별약관", S "진단비", S "실손", S "위로금", S "입원의료비"]

/-- `looks_like_plan_name`: plan-name heuristic (keyword hit or length at
least 15). -/
def looks_like_plan_name (s : Str) : Bool :=
  if s = [] then false
  else PLAN_KEYWORDS.any (fun k => decide (k <:+: s)) || decide (15 ≤ s.length)

/-- `looks_like_contract_name`: rider-name heuristic. -/
def looks_like_contract_name (s : Str) : Bool :=
  if s = [] then false
  else CONTRACT_KEYWORDS.any (fun k => decide (k <:+: s))

/-! ## Lookup tables -/

/-- `PRICE_MAP` / `SUM_INSURED_MAP` are loaded from JSON files at startup;
their contents are not part of the repository, so they are modelled as an
arbitrary read-only two-level insurer-to-product-to-amount mapping. -/
abbrev LookupMap := Str → Option (Str → Option Int)

/-- `_get_sum_insured`: `SUM_INSURED_MAP.get(c, ...).get(p, 10000000)`. -/
def get_sum_insured (m : LookupMap) (c p : Str) : Int :=
  match m c with
  | Option.none => 10000000
  | Option.some inner => (inner p).getD 10000000

/-- `_get_insurance_price`: `PRICE_MAP.get(c, ...).get(p, 30000)`. -/
def get_insurance_price (m : LookupMap) (c p : Str) : Int :=
  match m c with
  | Option.none => 30000
  | Option.some inner => (inner p).getD 30000

/-! ## Profile normalizer (`_analyze_user_profile`) -/

/-- The canonical analysis record built by `_analyze_user_profile`. -/
structure AnalysisRecord where
  gestational_week : Int
  is_multiple_pregnancy : Bool
  miscarriage_history : Int
  risk_factors : List Str
deriving Repr, DecidableEq

/-- Body of the complication loop in `_analyze_user_profile`: a bare string
is used as the complication code, anything else is probed like a dict; the
two recognized codes append their fixed labels, all others are dropped. -/
def complicationStep (acc : List Str) (c : PyVal) : Except PyErr (List Str) := do
  let c_type ←
    match c with
    | PyVal.str s => pure (PyVal.str s)
    | other => do
      let t1 ← pyDictGet other (S "pregnancyComplicationType") PyVal.none
      if pyTruthy t1 then pure t1 else pyDictGet other (S "complication_type") PyVal.none
  if pyEqStr c_type (S "PREECLAMPSIA") then pure (acc ++ [S "임신중독증"])
  else if pyEqStr c_type (S "PRETERM_RISK") then pure (acc ++ [S "조산위험"])
  else pure acc

/-- `_analyze_user_profile`: probe alternate key spellings with Python
`or`-chains, convert through `int()` / `bool()`, and collect recognized
risk-factor labels.  The `Except` error models the exceptions Python's
`int()` or attribute accesses can raise here (the function itself has no
`try`). -/
def analyze_user_profile (user_profile health_status : List (Str × PyVal)) :
    Except PyErr AnalysisRecord := do
  let p_info : PyVal :=
    match assocGet user_profile (S "pregnancyInfo") with
    | Option.some v => if pyTruthy v then v else PyVal.dict user_profile
    | Option.none => PyVal.dict user_profile
  let gw1 ← pyDictGet p_info (S "gestationalWeek") PyVal.none
  let gw2 ← if pyTruthy gw1 then pure gw1 else pyDictGet p_info (S "gestational_week") PyVal.none
  let gest_week := if pyTruthy gw2 then gw2 else PyVal.int 0
  let im1 ← pyDictGet p_info (S "isMultiplePregnancy") PyVal.none
  let im2 ← if pyTruthy im1 then pure im1 else pyDictGet p_info (S "is_multiple_pregnancy") PyVal.none
  let is_multiple := if pyTruthy im2 then im2 else PyVal.bool false
  let mh1 ← pyDictGet p_info (S "miscarriageHistory") PyVal.none
  let mh2 ← if pyTruthy mh1 then pure mh1 else pyDictGet p_info (S "miscarriage_history") PyVal.none
  let miscarriage := if pyTruthy mh2 then mh2 else PyVal.int 0
  let gwInt ← pyToInt gest_week
  let mhInt ← pyToInt miscarriage
  let comps1 := (assocGet health_status (S "pregnancyComplications")).getD PyVal.none
  let comps2 :=
    if pyTruthy comps1 then comps1
    else (assocGet health_status (S "pregnancy_complications")).getD PyVal.none
  let comps := if pyTruthy comps2 then comps2 else PyVal.list []
  let cs ← pyIter comps
  let rfs ← cs.foldlM complicationStep []
  pure ⟨gwInt, pyTruthy is_multiple, mhInt, rfs⟩

/-! ## Response normalizer (`_parse_llm_response_to_recommendation`) -/

/-- A retrieved passage; only its `metadata` mapping is consulted by the
response normalizer. -/
structure Passage where
  metadata : PyVal

/-- One entry of `special_contracts` in the output schema. -/
structure SpecialContract where
  contract_name : Str
  contract_description : Str
  contract_recommendation_reason : Str
  key_features : List Str
  page_number : Int

/-- One entry of `evidence_sources` in the output schema.  The snippet is
stored exactly as `rec.get("evidence", "")` returns it, without coercion. -/
structure EvidenceSource where
  page_number : Int
  text_snippet : PyVal

/-- One recommendation item of the output schema.  The rationale is stored
exactly as `rec.get("reason", "")` returns it, without coercion. -/
structure RecommendationItem where
  itemId : Str
  insurance_company : Str
  product_name : Str
  is_long_term : Bool
  sum_insured : Int
  monthly_cost : Str
  insurance_recommendation_reason : PyVal
  special_contracts : List SpecialContract
  evidence_sources : List EvidenceSource

/-- The `rag_metadata` record: parse success carries document count and
gestational week, the fallback carries its flag. -/
inductive RagMetadata where
  | stats (documents_used : Nat) (gestational_week : Int)
  | fallback

/-- A recommendation result.  `resultId` is absent exactly in the
empty-items results the parser returns on failure. -/
structure RecommendationResult where
  resultId : Option Str
  items : List RecommendationItem
  rag_metadata : Option RagMetadata

/-- The regex search with a greedy dot-all group: the match runs from the
first opening brace that is followed by a closing brace to the last closing
brace of the whole text; `Option.none` when there is no such pair. -/
def find_json_block (s : Str) : Option Str :=
  match (s.enum.filter (fun p => p.2 == '\x7d')).getLast? with
  | Option.none => Option.none
  | Option.some jp =>
    match s.enum.find? (fun p => p.2 == '\x7b' && decide (p.1 < jp.1)) with
    | Option.some ip => Option.some ((s.drop ip.1).take (jp.1 - ip.1 + 1))
    | Option.none => Option.none

/-- `_fix_json_string`: chained `str.replace` calls normalizing the quote
glyphs to a straight single quote and the capitalized literals to their
JSON spellings. -/
def fix_json_string (s : Str) : Str :=
  pyReplace
    (pyReplace
      (pyReplace
        (pyReplace (pyReplace (pyReplace (pyReplace s (S "「") [Char.ofNat 39])
            (S "」") [Char.ofNat 39])
          (S "“") [Char.ofNat 39])
        (S "”") [Char.ofNat 39])
      (S "True") (S "true"))
    (S "False") (S "false"))
    (S "None") (S "null")

/-- Reading and trimming of the `insurance_company` / `product_name` fields
of one raw recommendation entry (`(rec.get(...) or "").strip()`). -/
def readRaw (rec : PyVal) : Except PyErr (Str × Str) := do
  let c0 ← pyDictGet rec (S "insurance_company") PyVal.none
  let comp ← pyStrip (if pyTruthy c0 then c0 else PyVal.str [])
  let p0 ← pyDictGet rec (S "product_name") PyVal.none
  let prod ← pyStrip (if pyTruthy p0 then p0 else PyVal.str [])
  pure (comp, prod)

/-- Field reading plus the defensive field-swap correction: when the
insurer string looks like a plan name and the product string looks like a
rider name, the insurer string becomes the product name and the insurer is
re-extracted from it (kept unchanged when extraction finds nothing). -/
def readNames (rec : PyVal) : Except PyErr (Str × Str) := do
  let cp ← readRaw rec
  if looks_like_plan_name cp.1 && looks_like_contract_name cp.2 then
    let plan_name := cp.1
    let comp2 := if extract_insurer_name plan_name = [] then cp.1 else extract_insurer_name plan_name
    pure (comp2, plan_name)
  else
    pure cp

/-- Passage selection
(`relevant_docs[idx] if idx < len(relevant_docs) else relevant_docs[0]`):
the passage at `idx` when present, otherwise the first passage — an
`IndexError` when the passage list is empty. -/
def pickDoc (relevant_docs : List Passage) (idx : Nat) : Except PyErr Passage :=
  match relevant_docs.get? idx with
  | Option.some d => pure d
  | Option.none =>
    match relevant_docs with
    | [] => Except.error PyErr.indexError
    | d :: _ => pure d

/-- The loop body of `_parse_llm_response_to_recommendation`, producing one
`RecommendationItem` from the raw entry at index `idx`. -/
def buildItem (sumMap priceMap : LookupMap) (analysis : AnalysisRecord)
    (relevant_docs : List Passage) (idx : Nat) (itemId : Str) (rec : PyVal) :
    Except PyErr RecommendationItem := do
  let doc ← pickDoc relevant_docs idx
  let md := if pyTruthy doc.metadata then doc.metadata else PyVal.dict []
  let cp ← readNames rec
  let sum_insured := get_sum_insured sumMap cp.1 cp.2
  let monthly_cost := get_insurance_price priceMap cp.1 cp.2
  let sc0 ← pyDictGet rec (S "special_contracts") (PyVal.list [])
  let sc1 := if pyTruthy sc0 then sc0 else PyVal.list []
  let special_contracts :=
    match sc1 with
    | PyVal.str s => PyVal.list [PyVal.str s]
    | v => v
  let reason ← pyDictGet rec (S "reason") (PyVal.str [])
  let contracts ← pyIter special_contracts
  let page ← pyDictGet md (S "page_number") (PyVal.int 1) >>= pyToInt
  let evidence ← pyDictGet rec (S "evidence") (PyVal.str [])
  pure
    { itemId := itemId
      insurance_company := cp.1
      product_name := cp.2
      is_long_term := true
      sum_insured := sum_insured
      monthly_cost := intStr monthly_cost
      insurance_recommendation_reason := reason
      special_contracts := contracts.map (fun c =>
        { contract_name := pyStr c
          contract_description := S "약관 기반 맞춤 보장"
          contract_recommendation_reason := intStr analysis.gestational_week ++ S "주차 맞춤 특약"
          key_features := [S "보장 범위 확인 완료"]
          page_number := page })
      evidence_sources := [{ page_number := page, text_snippet := evidence }] }

/-- The `for idx, rec in enumerate(recs[:3])` loop: the first failing entry
aborts the whole construction with its exception. -/
def buildItems (sumMap priceMap : LookupMap) (analysis : AnalysisRecord)
    (relevant_docs : List Passage) (itemIds : Nat → Str) :
    Nat → List PyVal → Except PyErr (List RecommendationItem)
  | _, [] => .ok []
  | idx, rec :: rest => do
    let item ← buildItem sumMap priceMap analysis relevant_docs idx (itemIds idx) rec
    let tail ← buildItems sumMap priceMap analysis relevant_docs itemIds (idx + 1) rest
    .ok (item :: tail)

/-- Body of the `try` block of `_parse_llm_response_to_recommendation`.
`jsonLoads` stands for the opaque standard-library `json.loads`, returning
`Option.none` exactly when the library call would raise; `itemIds` and
`resultId` stand for the fresh `uuid.uuid4().hex[:8]` identifiers.  An
`Except.error` models a Python exception reaching the enclosing handler. -/
def parse_llm_core (jsonLoads : Str → Option PyVal) (sumMap priceMap : LookupMap)
    (itemIds : Nat → Str) (resultId : Str) (llm_response : Str)
    (analysis : AnalysisRecord) (relevant_docs : List Passage) :
    Except PyErr RecommendationResult := do
  match find_json_block llm_response with
  | Option.none => .ok ⟨Option.none, [], Option.none⟩
  | Option.some block => do
    let data ←
      match jsonLoads (fix_json_string block) with
      | Option.some d => Except.ok d
      | Option.none => Except.error PyErr.valueError
    let recs ← pyDictGet data (S "recommendations") (PyVal.list [])
    let recsTrunc ← pySliceTo3 recs
    let items ← buildItems sumMap priceMap analysis relevant_docs itemIds 0 recsTrunc
    .ok ⟨Option.some resultId, items,
      Option.some (RagMetadata.stats relevant_docs.length analysis.gestational_week)⟩

/-- `_parse_llm_response_to_recommendation`: the whole body sits inside
`try/except Exception`, which converts any exception into the result with
an empty items list and no result identifier. -/
def parse_llm_response_to_recommendation (jsonLoads : Str → Option PyVal)
    (sumMap priceMap : LookupMap) (itemIds : Nat → Str) (resultId : Str)
    (llm_response : Str) (analysis : AnalysisRecord) (relevant_docs : List Passage) :
    RecommendationResult :=
  match parse_llm_core jsonLoads sumMap priceMap itemIds resultId llm_response analysis relevant_docs with
  | Except.ok r => r
  | Except.error _ => ⟨Option.none, [], Option.none⟩

/-- `_fallback_recommendation`: fixed identifier, zero items, fallback
flag. -/
def fallback_recommendation : RecommendationResult :=
  ⟨Option.some (S "fallback"), [], Option.some RagMetadata.fallback⟩

/-! ## `main.py`: date conversion and the endpoint handler -/

/-- Gregorian leap-year test. -/
def isLeap (y : Int) : Bool := y % 4 == 0 && (y % 100 != 0 || y % 400 == 0)

/-- Days in a month of the proleptic Gregorian calendar. -/
def daysInMonth (y m : Int) : Int :=
  if m == 2 then (if isLeap y then 29 else 28)
  else if m == 4 || m == 6 || m == 9 || m == 11 then 30
  else 31

/-- Validity condition of Python's `datetime.date(y, m, d)` constructor. -/
def validDate (y m d : Int) : Prop :=
  1 ≤ y ∧ y ≤ 9999 ∧ 1 ≤ m ∧ m ≤ 12 ∧ 1 ≤ d ∧ d ≤ daysInMonth y m

instance validDate.decidable (y m d : Int) : Decidable (validDate y m d) := by
  unfold validDate
  infer_instance

/-- `datetime.date(y, m, d)`: raises `ValueError` outside the supported
range. -/
def mkDate (y m d : Int) : Except PyErr PyVal :=
  if validDate y m d then .ok (.date y m d) else .error .valueError

/-- `date.fromisoformat` restricted to the strict `YYYY-MM-DD` layout. -/
def fromiso (s : Str) : Except PyErr PyVal :=
  match s with
  | [y1, y2, y3, y4, h1, m1, m2, h2, d1, d2] =>
    if h1 == '-' && h2 == '-' && [y1, y2, y3, y4, m1, m2, d1, d2].all Char.isDigit then
      mkDate (digitsValNat [y1, y2, y3, y4] : Int) (digitsValNat [m1, m2] : Int)
        (digitsValNat [d1, d2] : Int)
    else .error .valueError
  | _ => .error .valueError

/-- `any_to_date` from `main.py`.  Only the string branch is protected by a
`try/except`; integer and list failures raise out of the converter.  A
Python `bool` passes the `isinstance(v, int)` test and is stringified as
`True`/`False`.  Lists of length other than 3 and dicts fall through to the
trailing `return v`. -/
def any_to_date (v : PyVal) : Except PyErr PyVal :=
  match v with
  | PyVal.none => .ok PyVal.none
  | PyVal.date y m d => .ok (PyVal.date y m d)
  | PyVal.bool b => do
    let s := if b then S "True" else S "False"
    let y ← parseIntStr (s.take 4)
    let m ← parseIntStr ((s.drop 4).take 2)
    let d ← parseIntStr ((s.drop 6).take 2)
    mkDate y m d
  | PyVal.int n => do
    let s := intStr n
    let y ← parseIntStr (s.take 4)
    let m ← parseIntStr ((s.drop 4).take 2)
    let d ← parseIntStr ((s.drop 6).take 2)
    mkDate y m d
  | PyVal.list [a, b, c] => do
    let y ← pyToInt a
    let m ← pyToInt b
    let d ← pyToInt c
    mkDate y m d
  | PyVal.str s =>
    match fromiso (s.takeWhile (fun c => c != 'T')) with
    | Except.ok d => .ok d
    | Except.error _ => .ok PyVal.none
  | v => .ok v

/-- Response of the `POST /ai/recommend` handler. -/
structure HandlerResponse where
  status : Nat
  resultId : Str
  expiresInSec : Nat
  items : List RecommendationItem

/-- The `recommend` handler of `main.py` downstream of body validation.
The engine outcome is passed as an `Except` value: an `.error` stands for
an uncaught exception raised anywhere inside the `try` block; `freshId` and
`errId` stand for the fresh `uuid.uuid4().hex[:8]` tokens used for a
missing result identifier and for the error tag. -/
def recommend (engine : Except PyErr RecommendationResult) (freshId errId : Str) :
    HandlerResponse :=
  match engine with
  | Except.ok r =>
    let raw_id := r.resultId.getD freshId
    let clean_id := pyReplace raw_id (S "rag-") []
    ⟨200, clean_id, 600, r.items⟩
  | Except.error _ => ⟨200, S "err-" ++ errId, 600, []⟩

/-! ## Basic lemmas about the string helpers -/

theorem pyReplaceAux_nil (pat rep : Str) (fuel : Nat) : pyReplaceAux pat rep fuel [] = [] := by
  cases fuel with
  | zero => rfl
  | succ f =>
    rw [pyReplaceAux.eq_2, if_neg]
    intro hc
    exact hc.1 (List.eq_nil_of_prefix_nil hc.2)

theorem pyReplaceAux_congr (pat rep : Str) :
    ∀ f1 f2 s, s.length ≤ f1 → s.length ≤ f2 →
      pyReplaceAux pat rep f1 s = pyReplaceAux pat rep f2 s := by
  intro f1
  induction f1 with
  | zero =>
    intro f2 s h1 _
    have hs : s = [] := List.eq_nil_of_length_eq_zero (Nat.le_zero.mp h1)
    subst hs
    rw [pyReplaceAux_nil, pyReplaceAux_nil]
  | succ f ih =>
    intro f2 s h1 h2
    cases s with
    | nil => rw [pyReplaceAux_nil, pyReplaceAux_nil]
    | cons c t =>
      cases f2 with
      | zero => simp at h2
      | succ f2' =>
        by_cases hc : pat ≠ [] ∧ pat <+: c :: t
        · rw [pyReplaceAux.eq_3, if_pos hc, pyReplaceAux.eq_3, if_pos hc]
          have hp : pat.length ≤ t.length + 1 := by
            have := hc.2.length_le
            simpa using this
          have h0 : 0 < pat.length := List.length_pos.mpr hc.1
          congr 1
          apply ih
          · simp only [List.length_drop, List.length_cons] at *
            omega
          · simp only [List.length_drop, List.length_cons] at *
            omega
        · rw [pyReplaceAux.eq_3, if_neg hc, pyReplaceAux.eq_3, if_neg hc]
          have h1' : t.length ≤ f := by simp at h1; omega
          have h2' : t.length ≤ f2' := by simp at h2; omega
          rw [ih f2' t h1' h2']

theorem pyReplace_eq_aux (s pat rep : Str) (fuel : Nat) (h : s.length ≤ fuel) :
    pyReplace s pat rep = pyReplaceAux pat rep fuel s :=
  pyReplaceAux_congr pat rep s.length fuel s le_rfl h

theorem pyReplace_nil (pat rep : Str) : pyReplace [] pat rep = [] :=
  pyReplaceAux_nil pat rep 0

theorem pyReplace_pos {s pat : Str} (rep : Str) (h1 : pat ≠ []) (h2 : pat <+: s) :
    pyReplace s pat rep = rep ++ pyReplace (s.drop pat.length) pat rep := by
  have hs : s ≠ [] := by
    intro hnil
    subst hnil
    exact h1 (List.eq_nil_of_prefix_nil h2)
  have hlen : 0 < s.length := List.length_pos.mpr hs
  obtain ⟨k, hk⟩ : ∃ k, s.length = k + 1 := ⟨s.length - 1, by omega⟩
  have h0 : 0 < pat.length := List.length_pos.mpr h1
  have hp : pat.length ≤ s.length := h2.length_le
  obtain ⟨c, t, rfl⟩ : ∃ c t, s = c :: t := by
    cases s with
    | nil => exact absurd rfl hs
    | cons c t => exact ⟨c, t, rfl⟩
  unfold pyReplace
  rw [List.length_cons, pyReplaceAux.eq_3, if_pos ⟨h1, h2⟩]
  congr 1
  refine (pyReplaceAux_congr pat rep ((c :: t).drop pat.length).length t.length _ le_rfl ?_).symm
  simp only [List.length_drop, List.length_cons] at *
  omega

theorem pyReplace_neg_cons {pat : Str} (rep : Str) (c : Char) (t : Str)
    (h : ¬ pat <+: c :: t) :
    pyReplace (c :: t) pat rep = c :: pyReplace t pat rep := by
  unfold pyReplace
  rw [List.length_cons, pyReplaceAux.eq_3, if_neg (fun hc => h hc.2)]

/-- Variant of the no-match step that also covers the empty pattern. -/
theorem pyReplace_stay_cons {pat : Str} (rep : Str) (c : Char) (t : Str)
    (h : ¬ (pat ≠ [] ∧ pat <+: c :: t)) :
    pyReplace (c :: t) pat rep = c :: pyReplace t pat rep := by
  unfold pyReplace
  rw [List.length_cons, pyReplaceAux.eq_3, if_neg h]

/-- A string with no occurrence of the (nonempty) pattern is unchanged by
the replacement. -/
theorem pyReplace_of_not_infix {s pat : Str} (rep : Str) (h1 : pat ≠ [])
    (h : ¬ pat <:+: s) : pyReplace s pat rep = s := by
  induction s with
  | nil => exact pyReplace_nil pat rep
  | cons c t ih =>
    rw [pyReplace_neg_cons rep c t (fun hp => h hp.isInfix)]
    rw [ih (fun hi => h (List.infix_cons_iff.mpr (Or.inr hi)))]

theorem natDigitsAux_congr : ∀ f1 f2 n : Nat, n < f1 → n < f2 →
    natDigitsAux f1 n = natDigitsAux f2 n := by
  intro f1
  induction f1 with
  | zero => intro f2 n h1 _; omega
  | succ f ih =>
    intro f2 n h1 h2
    cases f2 with
    | zero => omega
    | succ f2' =>
      by_cases hn : n < 10
      · rw [natDigitsAux, if_pos hn, natDigitsAux, if_pos hn]
      · rw [natDigitsAux, if_neg hn, natDigitsAux, if_neg hn]
        congr 1
        exact ih f2' (n / 10) (by omega) (by omega)

theorem natDigits_small {n : Nat} (h : n < 10) : natDigits n = [digitChar n] := by
  unfold natDigits
  rw [natDigitsAux, if_pos h]

theorem natDigits_step {n : Nat} (h : 10 ≤ n) :
    natDigits n = natDigits (n / 10) ++ [digitChar (n % 10)] := by
  unfold natDigits
  rw [natDigitsAux, if_neg (by omega)]
  congr 1
  exact natDigitsAux_congr n (n / 10 + 1) (n / 10) (by omega) (by omega)

/-! ## Basic lemmas about `Except` -/

@[simp] theorem exceptPure {ε α : Type} (a : α) :
    (pure a : Except ε α) = Except.ok a := rfl

@[simp] theorem exceptOkBind {ε α β : Type} (a : α) (g : α → Except ε β) :
    (Except.ok a : Except ε α) >>= g = g a := rfl

@[simp] theorem exceptErrorBind {ε α β : Type} (e : ε) (g : α → Except ε β) :
    (Except.error e : Except ε α) >>= g = Except.error e := rfl

@[simp] theorem exceptMapOk {ε α β : Type} (f : α → β) (a : α) :
    (Except.ok a : Except ε α).map f = Except.ok (f a) := rfl

@[simp] theorem exceptMapError {ε α β : Type} (f : α → β) (e : ε) :
    (Except.error e : Except ε α).map f = Except.error e := rfl

theorem exceptMapBind {ε α β γ : Type} (f : β → γ) (a : Except ε α) (g : α → Except ε β) :
    (a >>= g).map f = a >>= fun x => (g x).map f := by
  cases a <;> rfl

/-! ## C1: the response normalizer absorbs malformed replies -/

/-- C1 (amended).  For every raw generative reply, analysis record and
passage list, `_parse_llm_response_to_recommendation` is total (its whole
body sits in a `try/except Exception`, modelled by the outer match on
`parse_llm_core`), and whenever the reply is truly unparseable — no
brace-delimited block is found, or `json.loads` fails even after the
repair step — the returned result has an empty items list.  Replies that
are JSON apart from capitalized literals or alternate quote glyphs are
not in this class: the repair step turns them into valid JSON and they
can yield nonempty items (see the counterexample). -/
theorem C1_malformed_reply_empty_items (jsonLoads : Str → Option PyVal)
    (sumMap priceMap : LookupMap) (itemIds : Nat → Str) (resultId : Str)
    (llm_response : Str) (analysis : AnalysisRecord) (relevant_docs : List Passage)
    (hmal : find_json_block llm_response = Option.none ∨
      ∃ block, find_json_block llm_response = Option.some block ∧
        jsonLoads (fix_json_string block) = Option.none) :
    (parse_llm_response_to_recommendation jsonLoads sumMap priceMap itemIds resultId
      llm_response analysis relevant_docs).items = [] := by
  unfold parse_llm_response_to_recommendation parse_llm_core
  rcases hmal with h | ⟨block, hb, hj⟩
  · rw [h]
  · simp only [hb, hj, exceptErrorBind]

/-- Witness for C1: a reply with no JSON block at all, and a truncated
block that the parser rejects, both yield zero items. -/
theorem C1_witness :
    (parse_llm_response_to_recommendation (fun _ => Option.none) (fun _ => Option.none)
      (fun _ => Option.none) (fun _ => S "i") (S "r") (S "no json here")
      ⟨24, false, 0, []⟩ []).items = [] :=
  C1_malformed_reply_empty_items _ _ _ _ _ _ _ _ (Or.inl (by decide))

/-- C1 counterexample: a reply that is JSON apart from a capitalized
boolean — one of the malformed shapes the claim names — is repaired by
`_fix_json_string` into valid JSON (`json.loads`, stubbed here, rejects
the raw block but accepts the repaired one) and the normalizer then
returns one item, not zero, refuting the claim's zero-items clause. -/
theorem C1_counterexample :
    S "True" <:+: S "\x7b\"recommendations\": [\x7b\x7d], \"ok\": True\x7d" ∧
    (fun s => if s = S "\x7b\"recommendations\": [\x7b\x7d], \"ok\": true\x7d"
        then Option.some (PyVal.dict [(S "recommendations", PyVal.list [PyVal.dict []]),
          (S "ok", PyVal.bool true)])
        else Option.none)
      (S "\x7b\"recommendations\": [\x7b\x7d], \"ok\": True\x7d") = Option.none ∧
    (parse_llm_response_to_recommendation
      (fun s => if s = S "\x7b\"recommendations\": [\x7b\x7d], \"ok\": true\x7d"
        then Option.some (PyVal.dict [(S "recommendations", PyVal.list [PyVal.dict []]),
          (S "ok", PyVal.bool true)])
        else Option.none)
      (fun _ => Option.none) (fun _ => Option.none) (fun _ => S "id") (S "rid")
      (S "\x7b\"recommendations\": [\x7b\x7d], \"ok\": True\x7d")
      ⟨24, false, 0, []⟩ [⟨PyVal.dict []⟩]).items.length = 1 := by
  refine ⟨by decide, rfl, ?_⟩
  rfl

/-! ## C8: the endpoint handler converts any pipeline exception to a 200 -/

/-- C8.  The handler always answers with HTTP status 200, and when the
engine raises any uncaught exception the response carries an identifier
prefixed with the error tag and an empty items list. -/
theorem C8_pipeline_exception_yields_200 (engine : Except PyErr RecommendationResult)
    (freshId errId : Str) :
    (recommend engine freshId errId).status = 200 ∧
      (∀ e, engine = Except.error e →
        (recommend engine freshId errId).resultId = S "err-" ++ errId ∧
        S "err-" <+: (recommend engine freshId errId).resultId ∧
        (recommend engine freshId errId).items = []) := by
  refine ⟨?_, ?_⟩
  · cases engine <;> rfl
  · intro e he
    subst he
    exact ⟨rfl, ⟨errId, rfl⟩, rfl⟩

/-- Witness for C8 at a concrete engine exception. -/
theorem C8_witness :
    (recommend (Except.error PyErr.typeError) (S "x") (S "ff00aa11")).resultId
        = S "err-" ++ S "ff00aa11" ∧
      (recommend (Except.error PyErr.typeError) (S "x") (S "ff00aa11")).items = [] :=
  ⟨((C8_pipeline_exception_yields_200 _ (S "x") (S "ff00aa11")).2 PyErr.typeError rfl).1,
   ((C8_pipeline_exception_yields_200 _ (S "x") (S "ff00aa11")).2 PyErr.typeError rfl).2.2⟩

/-! ## C10: the handler strips "rag-" from the engine identifier -/

/-- C10.  The handler pipes the engine's result identifier through a global
removal of the substring "rag-".  Engine identifiers are uuid hexadecimal
tokens or the fixed "fallback", so they never contain a hyphen; for every
such identifier the removal is the identity and the response identifier
contains no occurrence of "rag-". -/
theorem C10_rag_removed_from_result_id (r : RecommendationResult) (freshId errId : Str)
    (h : ∀ c ∈ r.resultId.getD freshId, c ≠ '-') :
    (recommend (Except.ok r) freshId errId).resultId
        = pyReplace (r.resultId.getD freshId) (S "rag-") [] ∧
      (recommend (Except.ok r) freshId errId).resultId = r.resultId.getD freshId ∧
      ¬ (S "rag-") <:+: (recommend (Except.ok r) freshId errId).resultId := by
  have hni : ¬ (S "rag-") <:+: r.resultId.getD freshId := by
    intro hinf
    exact h '-' (hinf.sublist.subset (by decide)) rfl
  have hid : pyReplace (r.resultId.getD freshId) (S "rag-") [] = r.resultId.getD freshId :=
    pyReplace_of_not_infix [] (by decide) hni
  refine ⟨rfl, ?_, ?_⟩
  · exact hid
  · show ¬ (S "rag-") <:+: pyReplace (r.resultId.getD freshId) (S "rag-") []
    rw [hid]
    exact hni

/-- Witness for C10: the fixed "fallback" identifier passes through
unchanged. -/
theorem C10_witness :
    (recommend (Except.ok fallback_recommendation) (S "ab12cd34") (S "ee")).resultId
      = S "fallback" :=
  (C10_rag_removed_from_result_id fallback_recommendation (S "ab12cd34") (S "ee")
    (by decide)).2.1

/-! ## Inversion of a successful `buildItem` -/

/-- The fields of a successfully built item, in terms of the corrected
insurer/product pair. -/
theorem buildItem_fields {sumMap priceMap : LookupMap} {analysis : AnalysisRecord}
    {relevant_docs : List Passage} {idx : Nat} {itemId : Str} {rec : PyVal}
    {item : RecommendationItem}
    (h : buildItem sumMap priceMap analysis relevant_docs idx itemId rec = Except.ok item) :
    ∃ cp, readNames rec = Except.ok cp ∧
      item.itemId = itemId ∧
      item.insurance_company = cp.1 ∧
      item.product_name = cp.2 ∧
      item.is_long_term = true ∧
      item.sum_insured = get_sum_insured sumMap cp.1 cp.2 ∧
      item.monthly_cost = intStr (get_insurance_price priceMap cp.1 cp.2) := by
  unfold buildItem at h
  cases hdoc : pickDoc relevant_docs idx with
  | error e => rw [hdoc] at h; simp only [exceptErrorBind] at h; exact Except.noConfusion h
  | ok doc =>
  rw [hdoc] at h
  simp only [exceptOkBind] at h
  cases hcp : readNames rec with
  | error e => rw [hcp] at h; simp only [exceptErrorBind] at h; exact Except.noConfusion h
  | ok cp =>
  rw [hcp] at h
  simp only [exceptOkBind] at h
  cases hsc : pyDictGet rec (S "special_contracts") (PyVal.list []) with
  | error e => rw [hsc] at h; simp only [exceptErrorBind] at h; exact Except.noConfusion h
  | ok sc0 =>
  rw [hsc] at h
  simp only [exceptOkBind] at h
  cases hre : pyDictGet rec (S "reason") (PyVal.str []) with
  | error e => rw [hre] at h; simp only [exceptErrorBind] at h; exact Except.noConfusion h
  | ok reason =>
  rw [hre] at h
  simp only [exceptOkBind] at h
  cases hco : pyIter (match (if pyTruthy sc0 then sc0 else PyVal.list []) with
      | PyVal.str s => PyVal.list [PyVal.str s]
      | v => v) with
  | error e => rw [hco] at h; simp only [exceptErrorBind] at h; exact Except.noConfusion h
  | ok contracts =>
  rw [hco] at h
  simp only [exceptOkBind] at h
  cases hpg : pyDictGet (if pyTruthy doc.metadata then doc.metadata else PyVal.dict [])
      (S "page_number") (PyVal.int 1) >>= pyToInt with
  | error e => rw [hpg] at h; simp only [exceptErrorBind] at h; exact Except.noConfusion h
  | ok page =>
  rw [hpg] at h
  simp only [exceptOkBind] at h
  cases hev : pyDictGet rec (S "evidence") (PyVal.str []) with
  | error e => rw [hev] at h; simp only [exceptErrorBind] at h; exact Except.noConfusion h
  | ok evidence =>
  rw [hev] at h
  simp only [exceptOkBind] at h
  cases h
  exact ⟨cp, rfl, rfl, rfl, rfl, rfl, rfl, rfl⟩

/-! ## C3: lookup-table misses default the amounts -/

/-- C3.  For every item the normalizer produces, a corrected (insurer,
product) pair absent from the coverage table yields `sum_insured`
10,000,000, and a pair absent from the premium table yields `monthly_cost`
"30000"; the lookups themselves are total functions and never fail. -/
theorem C3_lookup_miss_defaults (sumMap priceMap : LookupMap) (analysis : AnalysisRecord)
    (relevant_docs : List Passage) (idx : Nat) (itemId : Str) (rec : PyVal)
    (cp : Str × Str) (item : RecommendationItem)
    (hnames : readNames rec = Except.ok cp)
    (hb : buildItem sumMap priceMap analysis relevant_docs idx itemId rec = Except.ok item)
    (habs1 : sumMap cp.1 = Option.none ∨
      ∃ inner, sumMap cp.1 = Option.some inner ∧ inner cp.2 = Option.none)
    (habs2 : priceMap cp.1 = Option.none ∨
      ∃ inner, priceMap cp.1 = Option.some inner ∧ inner cp.2 = Option.none) :
    item.sum_insured = 10000000 ∧ item.monthly_cost = S "30000" := by
  obtain ⟨cp', hn', _, _, _, _, hsum, hcost⟩ := buildItem_fields hb
  rw [hnames] at hn'
  obtain rfl : cp = cp' := by
    cases hn'
    rfl
  constructor
  · rw [hsum]
    rcases habs1 with h1 | ⟨inner, h1, h2⟩
    · unfold get_sum_insured
      rw [h1]
    · simp only [get_sum_insured, h1, h2, Option.getD_none]
  · rw [hcost]
    have hp : get_insurance_price priceMap cp.1 cp.2 = 30000 := by
      rcases habs2 with h1 | ⟨inner, h1, h2⟩
      · unfold get_insurance_price
        rw [h1]
      · simp only [get_insurance_price, h1, h2, Option.getD_none]
    rw [hp]
    rfl

/-- Witness for C3: a concrete entry against empty lookup tables. -/
theorem C3_witness :
    ∃ item, buildItem (fun _ => Option.none) (fun _ => Option.none) ⟨24, false, 0, []⟩
        [⟨PyVal.dict [(S "page_number", PyVal.int 3)]⟩] 0 (S "item0")
        (PyVal.dict [(S "insurance_company", PyVal.str (S "삼성화재")),
          (S "product_name", PyVal.str (S "태아보험 플랜"))]) = Except.ok item ∧
      item.sum_insured = 10000000 ∧ item.monthly_cost = S "30000" := by
  obtain ⟨item, hb⟩ :
      ∃ item, buildItem (fun _ => Option.none) (fun _ => Option.none) ⟨24, false, 0, []⟩
        [⟨PyVal.dict [(S "page_number", PyVal.int 3)]⟩] 0 (S "item0")
        (PyVal.dict [(S "insurance_company", PyVal.str (S "삼성화재")),
          (S "product_name", PyVal.str (S "태아보험 플랜"))]) = Except.ok item := ⟨_, rfl⟩
  refine ⟨item, hb, ?_⟩
  exact C3_lookup_miss_defaults (fun _ => Option.none) (fun _ => Option.none) ⟨24, false, 0, []⟩
    [⟨PyVal.dict [(S "page_number", PyVal.int 3)]⟩] 0 (S "item0")
    (PyVal.dict [(S "insurance_company", PyVal.str (S "삼성화재")),
      (S "product_name", PyVal.str (S "태아보험 플랜"))])
    (S "삼성화재", S "태아보험 플랜") item (by rfl) hb (Or.inl rfl) (Or.inl rfl)

/-! ## C2: the field-swap correction -/

theorem extract_insurer_name_spec_found {t : Str} (h : extract_insurer_name t ≠ []) :
    extract_insurer_name t ∈ INSURER_NAMES ∧ extract_insurer_name t <:+: t := by
  unfold extract_insurer_name at *
  by_cases ht : t = []
  · rw [if_pos ht] at h
    exact absurd rfl h
  · rw [if_neg ht] at *
    cases hf : INSURER_NAMES.find? (fun n => decide (n <:+: t)) with
    | none =>
      rw [hf] at h
      simp at h
    | some n =>
      show n ∈ INSURER_NAMES ∧ n <:+: t
      have hp := List.find?_some hf
      exact ⟨List.mem_of_find?_eq_some hf, of_decide_eq_true hp⟩

theorem extract_insurer_name_spec_empty {t : Str} (h : extract_insurer_name t = []) :
    ∀ n ∈ INSURER_NAMES, ¬ n <:+: t := by
  intro n hn hinf
  unfold extract_insurer_name at h
  by_cases ht : t = []
  · subst ht
    have hne : n ≠ [] := by
      fin_cases hn <;> decide
    exact hne (List.eq_nil_of_infix_nil hinf)
  · rw [if_neg ht] at h
    cases hf : INSURER_NAMES.find? (fun n => decide (n <:+: t)) with
    | none =>
      have := List.find?_eq_none.mp hf n hn
      simp at this
      exact this hinf
    | some m =>
      rw [hf] at h
      simp at h
      subst h
      have hm := List.mem_of_find?_eq_some hf
      have hno : ([] : Str) ∉ INSURER_NAMES := by decide
      exact hno hm

/-- `readNames` on an entry satisfying both heuristics performs the swap. -/
theorem readNames_swap {rec : PyVal} {comp prod : Str}
    (hraw : readRaw rec = Except.ok (comp, prod))
    (hplan : looks_like_plan_name comp = true)
    (hrider : looks_like_contract_name prod = true) :
    readNames rec = Except.ok
      (if extract_insurer_name comp = [] then comp else extract_insurer_name comp, comp) := by
  unfold readNames
  rw [hraw]
  simp only [exceptOkBind, hplan, hrider, Bool.and_self, if_pos]
  rfl

/-- C2.  For every raw entry whose trimmed insurer string satisfies the
plan-name heuristic and whose trimmed product string satisfies the
rider-name heuristic, the produced item's `product_name` is the (trimmed)
original insurer string, and its `insurance_company` is a known insurer
name found as a literal substring of that string, or that string unchanged
when no known insurer name occurs in it. -/
theorem C2_field_swap_correction (sumMap priceMap : LookupMap) (analysis : AnalysisRecord)
    (relevant_docs : List Passage) (idx : Nat) (itemId : Str) (rec : PyVal)
    (comp prod : Str) (item : RecommendationItem)
    (hraw : readRaw rec = Except.ok (comp, prod))
    (hplan : looks_like_plan_name comp = true)
    (hrider : looks_like_contract_name prod = true)
    (hb : buildItem sumMap priceMap analysis relevant_docs idx itemId rec = Except.ok item) :
    item.product_name = comp ∧
      ((item.insurance_company ∈ INSURER_NAMES ∧ item.insurance_company <:+: comp) ∨
        ((∀ n ∈ INSURER_NAMES, ¬ n <:+: comp) ∧ item.insurance_company = comp)) := by
  obtain ⟨cp, hn, _, hic, hpn, _, _, _⟩ := buildItem_fields hb
  rw [readNames_swap hraw hplan hrider] at hn
  have hcp : cp = (if extract_insurer_name comp = [] then comp
      else extract_insurer_name comp, comp) := by
    cases hn
    rfl
  subst hcp
  refine ⟨hpn, ?_⟩
  by_cases he : extract_insurer_name comp = []
  · right
    refine ⟨extract_insurer_name_spec_empty he, ?_⟩
    rw [hic]
    simp [he]
  · left
    obtain ⟨hm, hi⟩ := extract_insurer_name_spec_found he
    rw [hic]
    simp only [if_neg he]
    exact ⟨hm, hi⟩

/-- Witness for C2 at a concrete swapped entry: the insurer slot holds a
plan name containing a known insurer, the product slot holds a rider
name. -/
theorem C2_witness :
    ∃ item, buildItem (fun _ => Option.none) (fun _ => Option.none) ⟨24, false, 0, []⟩
        [⟨PyVal.dict []⟩] 0 (S "it")
        (PyVal.dict [(S "insurance_company", PyVal.str (S "삼성화재 무배당 아기보험 플랜")),
          (S "product_name", PyVal.str (S "진단비 특약"))]) = Except.ok item ∧
      item.product_name = S "삼성화재 무배당 아기보험 플랜" ∧
      ((item.insurance_company ∈ INSURER_NAMES ∧
          item.insurance_company <:+: S "삼성화재 무배당 아기보험 플랜") ∨
        ((∀ n ∈ INSURER_NAMES, ¬ n <:+: S "삼성화재 무배당 아기보험 플랜") ∧
          item.insurance_company = S "삼성화재 무배당 아기보험 플랜")) := by
  obtain ⟨item, hb⟩ :
      ∃ item, buildItem (fun _ => Option.none) (fun _ => Option.none) ⟨24, false, 0, []⟩
        [⟨PyVal.dict []⟩] 0 (S "it")
        (PyVal.dict [(S "insurance_company", PyVal.str (S "삼성화재 무배당 아기보험 플랜")),
          (S "product_name", PyVal.str (S "진단비 특약"))]) = Except.ok item := ⟨_, rfl⟩
  refine ⟨item, hb, ?_⟩
  exact C2_field_swap_correction (fun _ => Option.none) (fun _ => Option.none) ⟨24, false, 0, []⟩
    [⟨PyVal.dict []⟩] 0 (S "it")
    (PyVal.dict [(S "insurance_company", PyVal.str (S "삼성화재 무배당 아기보험 플랜")),
      (S "product_name", PyVal.str (S "진단비 특약"))])
    (S "삼성화재 무배당 아기보험 플랜") (S "진단비 특약") item (by rfl) (by rfl) (by rfl) hb

/-! ## C4: truncation to the first three entries -/

/-- When every entry of the (already truncated) list builds successfully,
the loop succeeds, produces exactly one item per entry, and the item at
each position comes from the entry at the same position. -/
theorem buildItems_ok_of_all (sumMap priceMap : LookupMap) (analysis : AnalysisRecord)
    (relevant_docs : List Passage) (itemIds : Nat → Str) :
    ∀ (l : List PyVal) (idx : Nat),
      (∀ i (h : i < l.length), ∃ item,
        buildItem sumMap priceMap analysis relevant_docs (idx + i) (itemIds (idx + i))
          (l.get ⟨i, h⟩) = Except.ok item) →
      ∃ items,
        buildItems sumMap priceMap analysis relevant_docs itemIds idx l = Except.ok items ∧
        items.length = l.length ∧
        ∀ i rec' item', l.get? i = Option.some rec' → items.get? i = Option.some item' →
          buildItem sumMap priceMap analysis relevant_docs (idx + i) (itemIds (idx + i)) rec'
            = Except.ok item' := by
  intro l
  induction l with
  | nil =>
    intro idx _
    refine ⟨[], rfl, rfl, ?_⟩
    intro i rec' item' hr _
    simp at hr
  | cons rec rest ih =>
    intro idx hall
    obtain ⟨item0, h0⟩ := hall 0 (by simp)
    have h0' : buildItem sumMap priceMap analysis relevant_docs idx (itemIds idx) rec
        = Except.ok item0 := by
      simpa using h0
    have hall2 : ∀ i (h : i < rest.length), ∃ item,
        buildItem sumMap priceMap analysis relevant_docs (idx + 1 + i) (itemIds (idx + 1 + i))
          (rest.get ⟨i, h⟩) = Except.ok item := by
      intro i h
      have hx := hall (i + 1) (by simpa using Nat.succ_lt_succ h)
      rw [show idx + (i + 1) = idx + 1 + i by omega] at hx
      simpa using hx
    obtain ⟨items2, hits, hlen, hpt⟩ := ih (idx + 1) hall2
    refine ⟨item0 :: items2, ?_, by simpa using hlen, ?_⟩
    · simp only [buildItems, h0', exceptOkBind, hits]
    · intro i rec' item' hr hi
      cases i with
      | zero =>
        simp only [List.get?_cons_zero, Option.some.injEq] at hr hi
        subst hr
        subst hi
        simpa using h0'
      | succ j =>
        simp only [List.get?_cons_succ] at hr hi
        have hx := hpt j rec' item' hr hi
        rw [show idx + (j + 1) = idx + 1 + j by omega]
        exact hx

/-- C4 (amended).  For every successfully parsed reply whose
recommendations list has `N` entries, each of the first `min N 3` of them
building without exception against the supplied passages, the output
items list has length exactly `min N 3`: the loop runs over
`recs.take 3`, keeping the first three entries in order and discarding
the rest.  The buildability condition is necessary — a parsed reply with
an unbuildable entry yields an empty items list instead (see the
counterexample). -/
theorem C4_items_length_min (jsonLoads : Str → Option PyVal)
    (sumMap priceMap : LookupMap) (itemIds : Nat → Str) (resultId : Str)
    (llm_response : Str) (analysis : AnalysisRecord) (relevant_docs : List Passage)
    (block : Str) (data : PyVal) (recs : List PyVal) (N : Nat)
    (hfind : find_json_block llm_response = Option.some block)
    (hjson : jsonLoads (fix_json_string block) = Option.some data)
    (hrecs : pyDictGet data (S "recommendations") (PyVal.list []) = Except.ok (PyVal.list recs))
    (hN : recs.length = N)
    (hall : ∀ i (h : i < (recs.take 3).length), ∃ item,
      buildItem sumMap priceMap analysis relevant_docs i (itemIds i)
        ((recs.take 3).get ⟨i, h⟩) = Except.ok item) :
    (parse_llm_response_to_recommendation jsonLoads sumMap priceMap itemIds resultId
      llm_response analysis relevant_docs).items.length = min N 3 := by
  obtain ⟨items, hits, hlen, _⟩ := buildItems_ok_of_all sumMap priceMap analysis relevant_docs
    itemIds (recs.take 3) 0 (by
      intro i h
      simpa using hall i h)
  unfold parse_llm_response_to_recommendation parse_llm_core
  simp only [hfind, hjson, exceptOkBind, hrecs, pySliceTo3, hits]
  simp only [hlen, List.length_take, hN]
  omega

/-- Witness for C4: a stubbed parse with two entries yields two items. -/
theorem C4_witness :
    (parse_llm_response_to_recommendation
      (fun _ => Option.some (PyVal.dict [(S "recommendations", PyVal.list
        [PyVal.dict [(S "insurance_company", PyVal.str (S "현대해상")),
           (S "product_name", PyVal.str (S "태아플랜"))],
         PyVal.dict [(S "insurance_company", PyVal.str (S "삼성화재")),
           (S "product_name", PyVal.str (S "아기플랜"))]])]))
      (fun _ => Option.none) (fun _ => Option.none) (fun _ => S "id") (S "rid")
      (S "\x7b\x7d") ⟨24, false, 0, []⟩
      [⟨PyVal.dict [(S "page_number", PyVal.int 2)]⟩]).items.length = min 2 3 := by
  refine C4_items_length_min _ _ _ _ _ _ _ _ (S "\x7b\x7d")
    (PyVal.dict [(S "recommendations", PyVal.list [
      PyVal.dict [(S "insurance_company", PyVal.str (S "현대해상")),
        (S "product_name", PyVal.str (S "태아플랜"))],
      PyVal.dict [(S "insurance_company", PyVal.str (S "삼성화재")),
        (S "product_name", PyVal.str (S "아기플랜"))]])])
    [
      PyVal.dict [(S "insurance_company", PyVal.str (S "현대해상")),
        (S "product_name", PyVal.str (S "태아플랜"))],
      PyVal.dict [(S "insurance_company", PyVal.str (S "삼성화재")),
        (S "product_name", PyVal.str (S "아기플랜"))]] 2
    (by decide) rfl rfl rfl ?_
  intro i h
  have h2 : i < 2 := by simpa using h
  interval_cases i
  · exact ⟨_, rfl⟩
  · exact ⟨_, rfl⟩

/-- C4 counterexample: a reply that parses successfully to a
recommendations list with one entry, the integer `5`.  The loop's
`rec.get("insurance_company")` raises `AttributeError` on the non-dict
entry, the enclosing `except` returns the empty result, and the items
list has length 0, not `min 1 3 = 1` — refuting the claim, which assumes
nothing about the entries beyond the parse succeeding. -/
theorem C4_counterexample :
    (parse_llm_response_to_recommendation
      (fun _ => Option.some (PyVal.dict [(S "recommendations", PyVal.list [PyVal.int 5])]))
      (fun _ => Option.none) (fun _ => Option.none) (fun _ => S "id") (S "rid")
      (S "\x7b\x7d") ⟨24, false, 0, []⟩ [⟨PyVal.dict []⟩]).items.length = 0 ∧
      (0 : Nat) ≠ min 1 3 := by
  exact ⟨rfl, by decide⟩

/-! ## C9: determinism up to the fresh identifiers -/

/-- A recommendation item with the fresh `itemId` erased; all remaining
fields are the content the idempotence claim compares. -/
structure ErasedItem where
  insurance_company : Str
  product_name : Str
  is_long_term : Bool
  sum_insured : Int
  monthly_cost : Str
  insurance_recommendation_reason : PyVal
  special_contracts : List SpecialContract
  evidence_sources : List EvidenceSource

/-- Forget the `itemId` of an item. -/
def eraseId (it : RecommendationItem) : ErasedItem :=
  ⟨it.insurance_company, it.product_name, it.is_long_term, it.sum_insured,
   it.monthly_cost, it.insurance_recommendation_reason, it.special_contracts,
   it.evidence_sources⟩

/-- Forget the `resultId` of a result and the `itemId`s of its items. -/
def eraseIds (r : RecommendationResult) : List ErasedItem × Option RagMetadata :=
  (r.items.map eraseId, r.rag_metadata)

theorem buildItem_erase (sumMap priceMap : LookupMap) (analysis : AnalysisRecord)
    (relevant_docs : List Passage) (idx : Nat) (id1 id2 : Str) (rec : PyVal) :
    (buildItem sumMap priceMap analysis relevant_docs idx id1 rec).map eraseId
      = (buildItem sumMap priceMap analysis relevant_docs idx id2 rec).map eraseId := by
  unfold buildItem
  cases pickDoc relevant_docs idx with
  | error e => rfl
  | ok doc =>
  simp only [exceptOkBind]
  cases readNames rec with
  | error e => rfl
  | ok cp =>
  simp only [exceptOkBind]
  cases pyDictGet rec (S "special_contracts") (PyVal.list []) with
  | error e => rfl
  | ok sc0 =>
  simp only [exceptOkBind]
  cases pyDictGet rec (S "reason") (PyVal.str []) with
  | error e => rfl
  | ok reason =>
  simp only [exceptOkBind]
  cases pyIter (match (if pyTruthy sc0 then sc0 else PyVal.list []) with
      | PyVal.str s => PyVal.list [PyVal.str s]
      | v => v) with
  | error e => rfl
  | ok contracts =>
  simp only [exceptOkBind]
  cases pyDictGet (if pyTruthy doc.metadata then doc.metadata else PyVal.dict [])
      (S "page_number") (PyVal.int 1) >>= pyToInt with
  | error e => rfl
  | ok page =>
  simp only [exceptOkBind]
  cases pyDictGet rec (S "evidence") (PyVal.str []) with
  | error e => rfl
  | ok evidence => rfl

theorem buildItems_erase (sumMap priceMap : LookupMap) (analysis : AnalysisRecord)
    (relevant_docs : List Passage) (ids1 ids2 : Nat → Str) :
    ∀ (l : List PyVal) (idx : Nat),
      (buildItems sumMap priceMap analysis relevant_docs ids1 idx l).map (List.map eraseId)
        = (buildItems sumMap priceMap analysis relevant_docs ids2 idx l).map (List.map eraseId) := by
  intro l
  induction l with
  | nil => intro _; rfl
  | cons rec rest ih =>
    intro idx
    have hhead := buildItem_erase sumMap priceMap analysis relevant_docs idx
      (ids1 idx) (ids2 idx) rec
    simp only [buildItems]
    cases h1 : buildItem sumMap priceMap analysis relevant_docs idx (ids1 idx) rec with
    | error e1 =>
      cases h2 : buildItem sumMap priceMap analysis relevant_docs idx (ids2 idx) rec with
      | error e2 =>
        rw [h1, h2] at hhead
        simp only [exceptMapError, Except.error.injEq] at hhead
        subst hhead
        rfl
      | ok it2 =>
        rw [h1, h2] at hhead
        simp at hhead
    | ok it1 =>
      cases h2 : buildItem sumMap priceMap analysis relevant_docs idx (ids2 idx) rec with
      | error e2 =>
        rw [h1, h2] at hhead
        simp at hhead
      | ok it2 =>
        rw [h1, h2] at hhead
        simp only [exceptMapOk, Except.ok.injEq] at hhead
        simp only [exceptOkBind]
        have htail := ih (idx + 1)
        cases hb1 : buildItems sumMap priceMap analysis relevant_docs ids1 (idx + 1) rest with
        | error e1 =>
          cases hb2 : buildItems sumMap priceMap analysis relevant_docs ids2 (idx + 1) rest with
          | error e2 =>
            rw [hb1, hb2] at htail
            simp only [exceptMapError, Except.error.injEq] at htail
            subst htail
            rfl
          | ok tl2 =>
            rw [hb1, hb2] at htail
            simp at htail
        | ok tl1 =>
          cases hb2 : buildItems sumMap priceMap analysis relevant_docs ids2 (idx + 1) rest with
          | error e2 =>
            rw [hb1, hb2] at htail
            simp at htail
          | ok tl2 =>
            rw [hb1, hb2] at htail
            simp only [exceptMapOk, Except.ok.injEq] at htail
            simp only [exceptOkBind, exceptMapOk, Except.ok.injEq, List.map_cons]
            rw [hhead, htail]

/-- C9.  Two runs of the response normalizer on identical raw text,
analysis record and passage list agree on every item field and on the
metadata; only the freshly generated `itemId`s and `resultId` (here the
`itemIds` / `resultId` parameters standing for `uuid4`) may differ. -/
theorem C9_idempotent_modulo_ids (jsonLoads : Str → Option PyVal)
    (sumMap priceMap : LookupMap) (itemIds1 itemIds2 : Nat → Str)
    (resultId1 resultId2 : Str) (llm_response : Str) (analysis : AnalysisRecord)
    (relevant_docs : List Passage) :
    eraseIds (parse_llm_response_to_recommendation jsonLoads sumMap priceMap itemIds1
        resultId1 llm_response analysis relevant_docs)
      = eraseIds (parse_llm_response_to_recommendation jsonLoads sumMap priceMap itemIds2
        resultId2 llm_response analysis relevant_docs) := by
  unfold parse_llm_response_to_recommendation parse_llm_core
  cases find_json_block llm_response with
  | none => rfl
  | some block =>
  dsimp only
  cases jsonLoads (fix_json_string block) with
  | none => rfl
  | some data =>
  dsimp only [exceptOkBind]
  cases pyDictGet data (S "recommendations") (PyVal.list []) with
  | error e => rfl
  | ok recs =>
  simp only [exceptOkBind]
  cases pySliceTo3 recs with
  | error e => rfl
  | ok recsTrunc =>
  simp only [exceptOkBind]
  have hb := buildItems_erase sumMap priceMap analysis relevant_docs itemIds1 itemIds2
    recsTrunc 0
  cases h1 : buildItems sumMap priceMap analysis relevant_docs itemIds1 0 recsTrunc with
  | error e1 =>
    cases h2 : buildItems sumMap priceMap analysis relevant_docs itemIds2 0 recsTrunc with
    | error e2 => rfl
    | ok tl2 =>
      rw [h1, h2] at hb
      simp at hb
  | ok tl1 =>
    cases h2 : buildItems sumMap priceMap analysis relevant_docs itemIds2 0 recsTrunc with
    | error e2 =>
      rw [h1, h2] at hb
      simp at hb
    | ok tl2 =>
      rw [h1, h2] at hb
      simp only [exceptMapOk, Except.ok.injEq] at hb
      simp only [exceptOkBind]
      unfold eraseIds
      simp [hb]

/-! ## C6: the profile normalizer -/

/-- C6 counterexample: with an arbitrary value under a probed key — here a
non-numeric string as the gestational week — `_analyze_user_profile`
raises (Python `int("abc")` is a `ValueError`) instead of producing an
analysis record, so it does not terminate without raising on arbitrary
values. -/
theorem C6_counterexample :
    analyze_user_profile [(S "gestationalWeek", PyVal.str (S "abc"))] []
      = Except.error PyErr.valueError := rfl

/-- Profile dict of the shapes the endpoint's validated schema can
produce: integer gestational week, boolean multiple-pregnancy flag,
integer miscarriage count, each possibly absent. -/
def mkUserProfile (ogw : Option Int) (ob : Option Bool) (omh : Option Int) :
    List (Str × PyVal) :=
  (match ogw with
    | Option.some n => [(S "gestationalWeek", PyVal.int n)]
    | Option.none => []) ++
  (match ob with
    | Option.some b => [(S "isMultiplePregnancy", PyVal.bool b)]
    | Option.none => []) ++
  (match omh with
    | Option.some n => [(S "miscarriageHistory", PyVal.int n)]
    | Option.none => [])

/-- Health-status dict with a list of complication code strings, as the
validated schema produces. -/
def mkHealthStatus (comps : List Str) : List (Str × PyVal) :=
  [(S "pregnancyComplications", PyVal.list (comps.map PyVal.str))]

/-- The fixed complication vocabulary: the two recognized codes map to
their labels, every other code is silently dropped. -/
def riskLabels (comps : List Str) : List Str :=
  comps.filterMap (fun c =>
    if c = S "PREECLAMPSIA" then Option.some (S "임신중독증")
    else if c = S "PRETERM_RISK" then Option.some (S "조산위험")
    else Option.none)

theorem complicationStep_str (acc : List Str) (c : Str) :
    complicationStep acc (PyVal.str c)
      = Except.ok (if c = S "PREECLAMPSIA" then acc ++ [S "임신중독증"]
        else if c = S "PRETERM_RISK" then acc ++ [S "조산위험"] else acc) := by
  unfold complicationStep
  by_cases h1 : c = S "PREECLAMPSIA"
  · simp +decide [pyEqStr, h1]
  · by_cases h2 : c = S "PRETERM_RISK"
    · simp +decide [pyEqStr, h1, h2]
    · simp [pyEqStr, h1, h2]

theorem riskLabels_nil : riskLabels [] = [] := rfl

theorem riskLabels_cons (c : Str) (rest : List Str) :
    riskLabels (c :: rest)
      = (if c = S "PREECLAMPSIA" then [S "임신중독증"]
         else if c = S "PRETERM_RISK" then [S "조산위험"] else []) ++ riskLabels rest := by
  unfold riskLabels
  by_cases h1 : c = S "PREECLAMPSIA"
  · simp [h1, List.filterMap_cons]
  · by_cases h2 : c = S "PRETERM_RISK"
    · simp +decide [h1, h2, List.filterMap_cons]
    · simp [h1, h2, List.filterMap_cons]

theorem foldComplications (comps : List Str) :
    ∀ acc, (comps.map PyVal.str).foldlM complicationStep acc
      = Except.ok (acc ++ riskLabels comps) := by
  induction comps with
  | nil =>
    intro acc
    simp [riskLabels]
  | cons c rest ih =>
    intro acc
    simp only [List.map_cons, List.foldlM_cons, complicationStep_str, exceptOkBind]
    rw [ih]
    congr 1
    unfold riskLabels
    by_cases h1 : c = S "PREECLAMPSIA"
    · simp +decide [h1]
    · by_cases h2 : c = S "PRETERM_RISK"
      · simp +decide [h1, h2]
      · simp [h1, h2]

theorem foldComplications_cons (c0 : Str) (crest : List Str) (acc : List Str) :
    List.foldlM complicationStep acc (PyVal.str c0 :: List.map PyVal.str crest)
      = Except.ok (acc ++ ((if c0 = S "PREECLAMPSIA" then [S "임신중독증"]
          else if c0 = S "PRETERM_RISK" then [S "조산위험"] else []) ++ riskLabels crest)) := by
  have h := foldComplications (c0 :: crest) acc
  simp only [List.map_cons] at h
  rw [h, riskLabels_cons]

set_option maxHeartbeats 1600000 in
/-- C6 (amended).  On raw maps whose probed values have the shapes the
validated endpoint can supply — integer week and count, boolean flag,
string complication codes, each possibly absent — the profile normalizer
terminates without raising and produces the well-formed record: week,
flag and count equal the supplied values (0 / false / 0 when absent), the
risk factors are exactly the recognized labels with unrecognized codes
silently dropped, and the week and count are non-negative whenever the
inputs are. -/
theorem C6_amended (ogw : Option Int) (ob : Option Bool) (omh : Option Int)
    (comps : List Str) :
    analyze_user_profile (mkUserProfile ogw ob omh) (mkHealthStatus comps)
        = Except.ok ⟨ogw.getD 0, ob.getD false, omh.getD 0, riskLabels comps⟩ ∧
      ∀ rec, analyze_user_profile (mkUserProfile ogw ob omh) (mkHealthStatus comps)
          = Except.ok rec →
        ((∀ n ∈ ogw, 0 ≤ n) → 0 ≤ rec.gestational_week) ∧
        ((∀ n ∈ omh, 0 ≤ n) → 0 ≤ rec.miscarriage_history) ∧
        (∀ l ∈ rec.risk_factors, l = S "임신중독증" ∨ l = S "조산위험") := by
  have hmain : analyze_user_profile (mkUserProfile ogw ob omh) (mkHealthStatus comps)
      = Except.ok ⟨ogw.getD 0, ob.getD false, omh.getD 0, riskLabels comps⟩ := by
    rcases ogw with _ | n <;> rcases ob with _ | b <;> rcases omh with _ | m <;>
      rcases comps with _ | ⟨c0, crest⟩ <;>
      simp [analyze_user_profile, mkUserProfile, mkHealthStatus, pyDictGet,
        assocGet, List.find?, pyTruthy, pyToInt, pyIter, exceptOkBind,
        foldComplications, riskLabels_nil, -List.foldlM_cons,
      (by decide : (S "gestationalWeek" == S "pregnancyInfo") = false),
      (by decide : (S "isMultiplePregnancy" == S "pregnancyInfo") = false),
      (by decide : (S "miscarriageHistory" == S "pregnancyInfo") = false),
      (by decide : (S "gestationalWeek" == S "gestationalWeek") = true),
      (by decide : (S "isMultiplePregnancy" == S "gestationalWeek") = false),
      (by decide : (S "miscarriageHistory" == S "gestationalWeek") = false),
      (by decide : (S "gestationalWeek" == S "gestational_week") = false),
      (by decide : (S "isMultiplePregnancy" == S "gestational_week") = false),
      (by decide : (S "miscarriageHistory" == S "gestational_week") = false),
      (by decide : (S "gestationalWeek" == S "isMultiplePregnancy") = false),
      (by decide : (S "isMultiplePregnancy" == S "isMultiplePregnancy") = true),
      (by decide : (S "miscarriageHistory" == S "isMultiplePregnancy") = false),
      (by decide : (S "gestationalWeek" == S "is_multiple_pregnancy") = false),
      (by decide : (S "isMultiplePregnancy" == S "is_multiple_pregnancy") = false),
      (by decide : (S "miscarriageHistory" == S "is_multiple_pregnancy") = false),
      (by decide : (S "gestationalWeek" == S "miscarriageHistory") = false),
      (by decide : (S "isMultiplePregnancy" == S "miscarriageHistory") = false),
      (by decide : (S "miscarriageHistory" == S "miscarriageHistory") = true),
      (by decide : (S "gestationalWeek" == S "miscarriage_history") = false),
      (by decide : (S "isMultiplePregnancy" == S "miscarriage_history") = false),
      (by decide : (S "miscarriageHistory" == S "miscarriage_history") = false),
      (by decide : (S "pregnancyComplications" == S "pregnancyComplications") = true),
      (by decide : (S "pregnancyComplications" == S "pregnancy_complications") = false)] <;>
      (try split_ifs) <;>
      simp_all [pyToInt, exceptOkBind, foldComplications_cons,
        riskLabels_cons, riskLabels_nil, -List.foldlM_cons]
  refine ⟨hmain, ?_⟩
  intro rec hrec
  rw [hmain] at hrec
  injection hrec with hrec
  subst hrec
  refine ⟨?_, ?_, ?_⟩
  · intro hpos
    rcases ogw with _ | n
    · simp
    · simpa using hpos n (by simp)
  · intro hpos
    rcases omh with _ | n
    · simp
    · simpa using hpos n (by simp)
  · intro l hl
    unfold riskLabels at hl
    simp only [List.mem_filterMap] at hl
    obtain ⟨c, _, hc⟩ := hl
    by_cases h1 : c = S "PREECLAMPSIA"
    · rw [if_pos h1] at hc
      injection hc with hc
      exact Or.inl hc.symm
    · rw [if_neg h1] at hc
      by_cases h2 : c = S "PRETERM_RISK"
      · rw [if_pos h2] at hc
        injection hc with hc
        exact Or.inr hc.symm
      · rw [if_neg h2] at hc
        exact absurd hc (by simp)

/-- Witness for C6 (amended) at concrete validated inputs, one recognized
and one unrecognized complication code. -/
theorem C6_witness :
    analyze_user_profile (mkUserProfile (Option.some 24) (Option.some false) Option.none)
        (mkHealthStatus [S "PREECLAMPSIA", S "OTHER"])
      = Except.ok ⟨24, false, 0, [S "임신중독증"]⟩ ∧ (0 : Int) ≤ 24 := by
  have h := C6_amended (Option.some 24) (Option.some false) Option.none
    [S "PREECLAMPSIA", S "OTHER"]
  refine ⟨?_, ?_⟩
  · have h1 := h.1
    simpa +decide [riskLabels] using h1
  · have h2 := (h.2 _ h.1).1 (by
      intro n hn
      simp at hn
      omega)
    simpa using h2

/-! ## C7: the endpoint date converter -/

/-- C7 counterexample: the 8-digit integer 20231301 (month 13) makes the
`datetime.date` constructor raise a `ValueError` that `any_to_date` does
not catch — the converter raises instead of yielding a null date, because
only its string branch is protected by `try/except`. -/
theorem C7_counterexample :
    any_to_date (PyVal.int 20231301) = Except.error PyErr.valueError := rfl

theorem digitChar_spec (a : Nat) (h : a < 10) :
    (digitChar a).isDigit = true ∧ (digitChar a).isWhitespace = false ∧
      digitChar a ≠ '-' ∧ digitChar a ≠ '+' ∧ (digitChar a != 'T') = true ∧
      digitVal (digitChar a) = a := by
  interval_cases a <;> refine ⟨by decide, by decide, by decide, by decide, by decide, by decide⟩

theorem stripChars_no_ws {s : Str} (h : ∀ c ∈ s, c.isWhitespace = false) :
    stripChars s = s := by
  unfold stripChars
  have h1 : s.dropWhile Char.isWhitespace = s := by
    cases s with
    | nil => rfl
    | cons c t => exact List.dropWhile_cons_of_neg (by simp [h c (by simp)])
  rw [h1]
  have h2 : s.reverse.dropWhile Char.isWhitespace = s.reverse := by
    cases hr : s.reverse with
    | nil => rfl
    | cons c t =>
      have hc : c ∈ s := by
        have hm : c ∈ s.reverse := by rw [hr]; simp
        simpa using hm
      exact List.dropWhile_cons_of_neg (by simp [h c hc])
  rw [h2, List.reverse_reverse]

theorem parseIntStr_four {a b c d : Nat} (ha : a < 10) (hb : b < 10) (hc : c < 10)
    (hd : d < 10) :
    parseIntStr [digitChar a, digitChar b, digitChar c, digitChar d]
      = Except.ok (Int.ofNat (((a * 10 + b) * 10 + c) * 10 + d)) := by
  obtain ⟨da1, dw1, dm1, dp1, dt1, dv1⟩ := digitChar_spec a ha
  obtain ⟨da2, dw2, dm2, dp2, dt2, dv2⟩ := digitChar_spec b hb
  obtain ⟨da3, dw3, dm3, dp3, dt3, dv3⟩ := digitChar_spec c hc
  obtain ⟨da4, dw4, dm4, dp4, dt4, dv4⟩ := digitChar_spec d hd
  have hstrip : stripChars [digitChar a, digitChar b, digitChar c, digitChar d]
      = [digitChar a, digitChar b, digitChar c, digitChar d] := by
    refine stripChars_no_ws ?_
    intro x hx
    simp only [List.mem_cons, List.not_mem_nil, or_false] at hx
    rcases hx with rfl | rfl | rfl | rfl <;> assumption
  have hval : digitsValNat [digitChar a, digitChar b, digitChar c, digitChar d]
      = ((a * 10 + b) * 10 + c) * 10 + d := by
    simp [digitsValNat, dv1, dv2, dv3, dv4]
    ring
  unfold parseIntStr
  rw [hstrip]
  dsimp only
  rw [if_neg dm1, if_neg dp1, if_pos (by simp [da1, da2, da3, da4]), hval]
  rfl

theorem parseIntStr_two {a b : Nat} (ha : a < 10) (hb : b < 10) :
    parseIntStr [digitChar a, digitChar b] = Except.ok (Int.ofNat (a * 10 + b)) := by
  obtain ⟨da1, dw1, dm1, dp1, dt1, dv1⟩ := digitChar_spec a ha
  obtain ⟨da2, dw2, dm2, dp2, dt2, dv2⟩ := digitChar_spec b hb
  have hstrip : stripChars [digitChar a, digitChar b] = [digitChar a, digitChar b] := by
    refine stripChars_no_ws ?_
    intro x hx
    simp only [List.mem_cons, List.not_mem_nil, or_false] at hx
    rcases hx with rfl | rfl <;> assumption
  have hval : digitsValNat [digitChar a, digitChar b] = a * 10 + b := by
    simp [digitsValNat, dv1, dv2]
    ring
  unfold parseIntStr
  rw [hstrip]
  dsimp only
  rw [if_neg dm1, if_neg dp1, if_pos (by simp [da1, da2]), hval]
  rfl

theorem natDigits_eight {v : Nat} (h1 : 10000000 ≤ v) (h2 : v < 100000000) :
    natDigits v = [digitChar (v / 10000000), digitChar (v / 1000000 % 10),
      digitChar (v / 100000 % 10), digitChar (v / 10000 % 10), digitChar (v / 1000 % 10),
      digitChar (v / 100 % 10), digitChar (v / 10 % 10), digitChar (v % 10)] := by
  rw [natDigits_step (show 10 ≤ v by omega),
    natDigits_step (show 10 ≤ v / 10 by omega),
    natDigits_step (show 10 ≤ v / 10 / 10 by omega),
    natDigits_step (show 10 ≤ v / 10 / 10 / 10 by omega),
    natDigits_step (show 10 ≤ v / 10 / 10 / 10 / 10 by omega),
    natDigits_step (show 10 ≤ v / 10 / 10 / 10 / 10 / 10 by omega),
    natDigits_step (show 10 ≤ v / 10 / 10 / 10 / 10 / 10 / 10 by omega),
    natDigits_small (show v / 10 / 10 / 10 / 10 / 10 / 10 / 10 < 10 by omega)]
  simp only [Nat.div_div_eq_div_mul]
  norm_num

theorem intStr_ofNat (v : Nat) : intStr (Int.ofNat v) = natDigits v := by
  unfold intStr
  rw [if_neg (show ¬ (Int.ofNat v < 0) by
    rw [Int.ofNat_eq_natCast]
    exact not_lt.mpr (Int.natCast_nonneg v))]
  rfl

/-- Zero-padded decimal rendering used to build a concrete `YYYY-MM-DD`
string. -/
def isoStr (y m d : Nat) : Str :=
  [digitChar (y / 1000 % 10), digitChar (y / 100 % 10), digitChar (y / 10 % 10),
   digitChar (y % 10), '-', digitChar (m / 10 % 10), digitChar (m % 10), '-',
   digitChar (d / 10 % 10), digitChar (d % 10)]

/-- C7 (amended).  The converter produces the expected calendar date for
well-formed inputs of the three supported shapes — an 8-digit `YYYYMMDD`
integer, a 3-element integer list, and an ISO `YYYY-MM-DD` string — whose
components form a valid calendar date; a string whose ISO parse fails
yields a null date; but integer (and list) conversion failures raise, as
the counterexample shows, so only string failures are converted to null. -/
theorem C7_amended :
    (∀ y m d : Nat, 1000 ≤ y → y ≤ 9999 → 1 ≤ m → m ≤ 12 → 1 ≤ d → d ≤ 31 →
      validDate (y : Int) (m : Int) (d : Int) →
      any_to_date (PyVal.int (Int.ofNat (y * 10000 + m * 100 + d)))
        = Except.ok (PyVal.date (y : Int) (m : Int) (d : Int))) ∧
    (∀ y m d : Int, validDate y m d →
      any_to_date (PyVal.list [PyVal.int y, PyVal.int m, PyVal.int d])
        = Except.ok (PyVal.date y m d)) ∧
    (∀ y m d : Nat, y ≤ 9999 → m ≤ 99 → d ≤ 99 →
      validDate (y : Int) (m : Int) (d : Int) →
      any_to_date (PyVal.str (isoStr y m d))
        = Except.ok (PyVal.date (y : Int) (m : Int) (d : Int))) ∧
    (∀ s : Str, (∃ e, fromiso (s.takeWhile (fun c => c != 'T')) = Except.error e) →
      any_to_date (PyVal.str s) = Except.ok PyVal.none) := by
  refine ⟨?_, ?_, ?_, ?_⟩
  · intro y m d hy1 hy2 hm1 hm2 hd1 hd2 hvalid
    have hb1 : 10000000 ≤ y * 10000 + m * 100 + d := by omega
    have hb2 : y * 10000 + m * 100 + d < 100000000 := by omega
    simp only [any_to_date]
    rw [intStr_ofNat, natDigits_eight hb1 hb2]
    have htake : ([digitChar ((y * 10000 + m * 100 + d) / 10000000),
        digitChar ((y * 10000 + m * 100 + d) / 1000000 % 10),
        digitChar ((y * 10000 + m * 100 + d) / 100000 % 10),
        digitChar ((y * 10000 + m * 100 + d) / 10000 % 10),
        digitChar ((y * 10000 + m * 100 + d) / 1000 % 10),
        digitChar ((y * 10000 + m * 100 + d) / 100 % 10),
        digitChar ((y * 10000 + m * 100 + d) / 10 % 10),
        digitChar ((y * 10000 + m * 100 + d) % 10)] : Str).take 4
        = [digitChar ((y * 10000 + m * 100 + d) / 10000000),
           digitChar ((y * 10000 + m * 100 + d) / 1000000 % 10),
           digitChar ((y * 10000 + m * 100 + d) / 100000 % 10),
           digitChar ((y * 10000 + m * 100 + d) / 10000 % 10)] := rfl
    have hdrop4 : (([digitChar ((y * 10000 + m * 100 + d) / 10000000),
        digitChar ((y * 10000 + m * 100 + d) / 1000000 % 10),
        digitChar ((y * 10000 + m * 100 + d) / 100000 % 10),
        digitChar ((y * 10000 + m * 100 + d) / 10000 % 10),
        digitChar ((y * 10000 + m * 100 + d) / 1000 % 10),
        digitChar ((y * 10000 + m * 100 + d) / 100 % 10),
        digitChar ((y * 10000 + m * 100 + d) / 10 % 10),
        digitChar ((y * 10000 + m * 100 + d) % 10)] : Str).drop 4).take 2
        = [digitChar ((y * 10000 + m * 100 + d) / 1000 % 10),
           digitChar ((y * 10000 + m * 100 + d) / 100 % 10)] := rfl
    have hdrop6 : (([digitChar ((y * 10000 + m * 100 + d) / 10000000),
        digitChar ((y * 10000 + m * 100 + d) / 1000000 % 10),
        digitChar ((y * 10000 + m * 100 + d) / 100000 % 10),
        digitChar ((y * 10000 + m * 100 + d) / 10000 % 10),
        digitChar ((y * 10000 + m * 100 + d) / 1000 % 10),
        digitChar ((y * 10000 + m * 100 + d) / 100 % 10),
        digitChar ((y * 10000 + m * 100 + d) / 10 % 10),
        digitChar ((y * 10000 + m * 100 + d) % 10)] : Str).drop 6).take 2
        = [digitChar ((y * 10000 + m * 100 + d) / 10 % 10),
           digitChar ((y * 10000 + m * 100 + d) % 10)] := rfl
    rw [htake, hdrop4, hdrop6]
    rw [parseIntStr_four (by omega) (by omega) (by omega) (by omega)]
    rw [parseIntStr_two (by omega) (by omega)]
    rw [parseIntStr_two (by omega) (by omega)]
    simp only [exceptOkBind]
    have hy : ((((y * 10000 + m * 100 + d) / 10000000) * 10
        + (y * 10000 + m * 100 + d) / 1000000 % 10) * 10
        + (y * 10000 + m * 100 + d) / 100000 % 10) * 10
        + (y * 10000 + m * 100 + d) / 10000 % 10 = y := by omega
    have hm : ((y * 10000 + m * 100 + d) / 1000 % 10) * 10
        + (y * 10000 + m * 100 + d) / 100 % 10 = m := by omega
    have hd : ((y * 10000 + m * 100 + d) / 10 % 10) * 10
        + (y * 10000 + m * 100 + d) % 10 = d := by omega
    rw [hy, hm, hd]
    simp only [Int.ofNat_eq_natCast]
    unfold mkDate
    rw [if_pos hvalid]
  · intro y m d hvalid
    simp only [any_to_date, pyToInt, exceptOkBind]
    unfold mkDate
    rw [if_pos hvalid]
  · intro y m d hy hm hd hvalid
    obtain ⟨da1, dw1, dm1, dp1, dt1, dv1⟩ := digitChar_spec (y / 1000 % 10) (by omega)
    obtain ⟨da2, dw2, dm2, dp2, dt2, dv2⟩ := digitChar_spec (y / 100 % 10) (by omega)
    obtain ⟨da3, dw3, dm3, dp3, dt3, dv3⟩ := digitChar_spec (y / 10 % 10) (by omega)
    obtain ⟨da4, dw4, dm4, dp4, dt4, dv4⟩ := digitChar_spec (y % 10) (by omega)
    obtain ⟨da5, dw5, dm5, dp5, dt5, dv5⟩ := digitChar_spec (m / 10 % 10) (by omega)
    obtain ⟨da6, dw6, dm6, dp6, dt6, dv6⟩ := digitChar_spec (m % 10) (by omega)
    obtain ⟨da7, dw7, dm7, dp7, dt7, dv7⟩ := digitChar_spec (d / 10 % 10) (by omega)
    obtain ⟨da8, dw8, dm8, dp8, dt8, dv8⟩ := digitChar_spec (d % 10) (by omega)
    simp only [any_to_date]
    have htw : (isoStr y m d).takeWhile (fun c => c != 'T') = isoStr y m d := by
      unfold isoStr
      simp [List.takeWhile, dt1, dt2, dt3, dt4, dt5, dt6, dt7, dt8]
    rw [htw]
    unfold isoStr fromiso
    dsimp only
    rw [if_pos (by simp [da1, da2, da3, da4, da5, da6, da7, da8])]
    have hvy : digitsValNat [digitChar (y / 1000 % 10), digitChar (y / 100 % 10),
        digitChar (y / 10 % 10), digitChar (y % 10)] = y := by
      simp [digitsValNat, dv1, dv2, dv3, dv4]
      omega
    have hvm : digitsValNat [digitChar (m / 10 % 10), digitChar (m % 10)] = m := by
      simp [digitsValNat, dv5, dv6]
      omega
    have hvd : digitsValNat [digitChar (d / 10 % 10), digitChar (d % 10)] = d := by
      simp [digitsValNat, dv7, dv8]
      omega
    rw [hvy, hvm, hvd]
    unfold mkDate
    rw [if_pos hvalid]
  · intro s he
    obtain ⟨e, he⟩ := he
    simp only [any_to_date]
    rw [he]

/-- Witness for C7 (amended) at concrete inputs: a leap-day 8-digit
integer, a 3-element list, a padded ISO string, and a malformed string. -/
theorem C7_witness :
    any_to_date (PyVal.int (Int.ofNat (2024 * 10000 + 2 * 100 + 29)))
        = Except.ok (PyVal.date ((2024 : Nat) : Int) ((2 : Nat) : Int) ((29 : Nat) : Int)) ∧
      any_to_date (PyVal.list [PyVal.int 2023, PyVal.int 7, PyVal.int 15])
        = Except.ok (PyVal.date 2023 7 15) ∧
      any_to_date (PyVal.str (isoStr 2024 3 5))
        = Except.ok (PyVal.date ((2024 : Nat) : Int) ((3 : Nat) : Int) ((5 : Nat) : Int)) ∧
      any_to_date (PyVal.str (S "not a date")) = Except.ok PyVal.none := by
  refine ⟨?_, ?_, ?_, ?_⟩
  · exact C7_amended.1 2024 2 29 (by omega) (by omega) (by omega) (by omega) (by omega)
      (by omega) (by decide)
  · exact C7_amended.2.1 2023 7 15 (by decide)
  · exact C7_amended.2.2.1 2024 3 5 (by omega) (by omega) (by omega) (by decide)
  · exact C7_amended.2.2.2 (S "not a date") ⟨PyErr.valueError, rfl⟩

/-! ## C5: the repair step of the response normalizer -/

/-- C5 counterexample: the literal-token conversion is a plain global
substring replacement, so it also rewrites matching text inside string
values — here the quoted value "None" becomes "null" — refuting the
claim's clause that content inside string values is not altered. -/
theorem C5_counterexample :
    fix_json_string (S "\x7b\"a\": \"None\"\x7d") ≠ S "\x7b\"a\": \"None\"\x7d" ∧
      fix_json_string (S "\x7b\"a\": \"None\"\x7d") = S "\x7b\"a\": \"null\"\x7d" := by
  exact ⟨by decide, by decide⟩

/-- If a nonempty list `q` — a suffix of the pattern's tail — is a prefix
of the replaced string, it already was a prefix of the input at an
unreplaced position. -/
theorem replaceTailTrace (U : Char) (pt r : Str)
    (hcond : ∀ q ∈ pt.tails, q ≠ [] → ¬ q <+: r ∧ ¬ r <+: q) :
    ∀ t q, q ∈ pt.tails → q ≠ [] → q <+: pyReplace t (U :: pt) r → q <+: t := by
  intro t
  induction t with
  | nil =>
    intro q _ hne hp
    rw [pyReplace_nil] at hp
    exact absurd (List.eq_nil_of_prefix_nil hp) hne
  | cons c t' ih =>
    intro q hq hne hp
    by_cases hm : (U :: pt) ≠ [] ∧ (U :: pt) <+: c :: t'
    · rw [pyReplace_pos r hm.1 hm.2] at hp
      rcases hcond q hq hne with ⟨hqr, hrq⟩
      by_cases hlen : q.length ≤ r.length
      · refine absurd ?_ hqr
        have h1 := List.prefix_iff_eq_take.mp hp
        rw [List.take_append_of_le_length hlen] at h1
        exact h1 ▸ ⟨r.drop q.length, List.take_append_drop _ _⟩
      · exact absurd
          (List.prefix_of_prefix_length_le (List.prefix_append r _) hp (by omega)) hrq
    · rw [pyReplace_neg_cons r c t' (fun h2 => hm ⟨by simp, h2⟩)] at hp
      cases q with
      | nil => exact absurd rfl hne
      | cons d q' =>
        rw [List.cons_prefix_cons] at hp
        obtain ⟨rfl, hp'⟩ := hp
        by_cases hq'nil : q' = []
        · subst hq'nil
          exact List.cons_prefix_cons.mpr ⟨rfl, ⟨t', rfl⟩⟩
        · have hq'tails : q' ∈ pt.tails := by
            rw [List.mem_tails] at hq ⊢
            exact (List.suffix_cons d q').trans hq
          have hq'pre := ih q' hq'tails hq'nil hp'
          exact List.cons_prefix_cons.mpr ⟨rfl, hq'pre⟩

/-- After replacing every occurrence of a pattern whose head character does
not occur in the replacement (and whose tail cannot be confused with the
replacement at a block boundary), no occurrence of the pattern remains. -/
theorem pyReplace_no_pattern (U : Char) (pt r : Str) (hU : U ∉ r)
    (hcond : ∀ q ∈ pt.tails, q ≠ [] → ¬ q <+: r ∧ ¬ r <+: q) :
    ∀ s, ¬ (U :: pt) <:+: pyReplace s (U :: pt) r := by
  have hC : ∀ (a X : Str), U ∉ a → ¬ (U :: pt) <:+: X → ¬ (U :: pt) <:+: a ++ X := by
    intro a
    induction a with
    | nil => intro X _ hX; simpa using hX
    | cons b a' ih =>
      intro X hUa hX hinf
      rw [List.cons_append, List.infix_cons_iff] at hinf
      rcases hinf with hpre | hinf
      · rw [List.cons_prefix_cons] at hpre
        exact hUa (by simp [hpre.1])
      · exact ih X (fun hma => hUa (by simp [hma])) hX hinf
  have main : ∀ n s, s.length ≤ n → ¬ (U :: pt) <:+: pyReplace s (U :: pt) r := by
    intro n
    induction n with
    | zero =>
      intro s hs
      have hnil : s = [] := List.eq_nil_of_length_eq_zero (Nat.le_zero.mp hs)
      subst hnil
      rw [pyReplace_nil]
      intro h
      simpa using List.eq_nil_of_infix_nil h
    | succ n ih =>
      intro s hs
      cases s with
      | nil =>
        rw [pyReplace_nil]
        intro h
        simpa using List.eq_nil_of_infix_nil h
      | cons c t =>
        by_cases hm : (U :: pt) ≠ [] ∧ (U :: pt) <+: c :: t
        · rw [pyReplace_pos r hm.1 hm.2]
          refine hC r _ hU (ih _ ?_)
          have hple : (U :: pt).length ≤ (c :: t).length := hm.2.length_le
          simp only [List.length_drop, List.length_cons] at *
          omega
        · rw [pyReplace_neg_cons r c t (fun h2 => hm ⟨by simp, h2⟩)]
          intro hinf
          rw [List.infix_cons_iff] at hinf
          rcases hinf with hpre | hinf
          · rw [List.cons_prefix_cons] at hpre
            obtain ⟨rfl, hpre⟩ := hpre
            cases hpt : pt with
            | nil =>
              refine hm ⟨by simp, ?_⟩
              rw [hpt]
              exact List.cons_prefix_cons.mpr ⟨rfl, ⟨t, rfl⟩⟩
            | cons e pt' =>
              have hptt : pt <+: t := replaceTailTrace U pt r hcond t pt
                (List.mem_tails pt pt |>.mpr List.suffix_rfl) (by simp [hpt]) hpre
              exact hm ⟨by simp, List.cons_prefix_cons.mpr ⟨rfl, hptt⟩⟩
          · refine ih t ?_ hinf
            simp only [List.length_cons] at hs
            omega
  intro s
  exact main s.length s le_rfl

/-- Every character of the replaced string comes from the input or from
the replacement. -/
theorem pyReplace_chars {pat rep : Str} :
    ∀ (s : Str) (x : Char), x ∈ pyReplace s pat rep → x ∈ s ∨ x ∈ rep := by
  have main : ∀ n s, s.length ≤ n → ∀ x, x ∈ pyReplace s pat rep → x ∈ s ∨ x ∈ rep := by
    intro n
    induction n with
    | zero =>
      intro s hs x hx
      have hnil : s = [] := List.eq_nil_of_length_eq_zero (Nat.le_zero.mp hs)
      subst hnil
      rw [pyReplace_nil] at hx
      simp at hx
    | succ n ih =>
      intro s hs x hx
      cases s with
      | nil =>
        rw [pyReplace_nil] at hx
        simp at hx
      | cons c t =>
        by_cases hm : pat ≠ [] ∧ pat <+: c :: t
        · rw [pyReplace_pos rep hm.1 hm.2] at hx
          rcases List.mem_append.mp hx with hx | hx
          · exact Or.inr hx
          · have hple := hm.2.length_le
            have h0 : 0 < pat.length := List.length_pos.mpr hm.1
            have hlen : ((c :: t).drop pat.length).length ≤ n := by
              simp only [List.length_drop, List.length_cons] at *
              omega
            rcases ih _ hlen x hx with h | h
            · exact Or.inl (List.drop_subset _ _ h)
            · exact Or.inr h
        · rw [pyReplace_stay_cons rep c t hm] at hx
          rcases List.mem_cons.mp hx with rfl | hx
          · exact Or.inl (by simp)
          · have hlt : t.length ≤ n := by
              simp only [List.length_cons] at hs
              omega
            rcases ih t hlt x hx with h | h
            · exact Or.inl (by simp [h])
            · exact Or.inr h
  intro s x hx
  exact main s.length s le_rfl x hx

theorem mem_infix_singleton {x : Char} {l : Str} (h : x ∈ l) : [x] <:+: l := by
  obtain ⟨s1, s2, rfl⟩ := List.append_of_mem h
  exact ⟨s1, s2, by simp⟩

theorem pyReplace_not_mem {x : Char} {s pat rep : Str} (hs : x ∉ s) (hr : x ∉ rep) :
    x ∉ pyReplace s pat rep :=
  fun h => ((pyReplace_chars s x h).elim hs hr)

theorem pyReplace_glyph_gone {g : Char} {rep : Str} (hg : g ∉ rep) (s : Str) :
    g ∉ pyReplace s [g] rep := by
  intro hmem
  refine pyReplace_no_pattern g [] rep hg ?_ s (mem_infix_singleton hmem)
  intro q hq hne
  simp at hq
  exact absurd hq hne

/-- The quote-glyph phase of `_fix_json_string`, named for use in the
statement about the later literal-token phases. -/
def quoteNormalized (s : Str) : Str :=
  pyReplace (pyReplace (pyReplace (pyReplace s (S "「") [Char.ofNat 39])
      (S "」") [Char.ofNat 39])
    (S "“") [Char.ofNat 39])
  (S "”") [Char.ofNat 39]

theorem fix_json_string_phases (s : Str) :
    fix_json_string s
      = pyReplace (pyReplace (pyReplace (quoteNormalized s) (S "True") (S "true"))
          (S "False") (S "false")) (S "None") (S "null") := rfl

/-- C5 (amended).  The repair step normalizes the four alternate quote
glyphs to straight single quotes — none of them survives — and rewrites
the capitalized literals True/False/None to true/false/null by plain
global substring replacement applied uniformly to the whole extracted
text, including inside string values: each literal pass leaves no
occurrence of its own pattern. -/
theorem C5_amended (s : Str) :
    ('「' ∉ fix_json_string s ∧ '」' ∉ fix_json_string s ∧
      '“' ∉ fix_json_string s ∧ '”' ∉ fix_json_string s) ∧
    ¬ (S "True") <:+: pyReplace (quoteNormalized s) (S "True") (S "true") ∧
    ¬ (S "False") <:+: pyReplace (pyReplace (quoteNormalized s) (S "True") (S "true"))
        (S "False") (S "false") ∧
    ¬ (S "None") <:+: fix_json_string s := by
  refine ⟨⟨?_, ?_, ?_, ?_⟩, ?_, ?_, ?_⟩
  · exact pyReplace_not_mem (pyReplace_not_mem (pyReplace_not_mem (pyReplace_not_mem
      (pyReplace_not_mem (pyReplace_not_mem (pyReplace_glyph_gone (by decide) s)
        (by decide)) (by decide)) (by decide)) (by decide)) (by decide)) (by decide)
  · exact pyReplace_not_mem (pyReplace_not_mem (pyReplace_not_mem (pyReplace_not_mem
      (pyReplace_not_mem (pyReplace_glyph_gone (by decide)
          (pyReplace s (S "「") [Char.ofNat 39]))
        (by decide)) (by decide)) (by decide)) (by decide)) (by decide)
  · exact pyReplace_not_mem (pyReplace_not_mem (pyReplace_not_mem (pyReplace_not_mem
      (pyReplace_glyph_gone (by decide)
        (pyReplace (pyReplace s (S "「") [Char.ofNat 39]) (S "」") [Char.ofNat 39]))
      (by decide)) (by decide)) (by decide)) (by decide)
  · exact pyReplace_not_mem (pyReplace_not_mem (pyReplace_not_mem
      (pyReplace_glyph_gone (by decide)
        (pyReplace (pyReplace (pyReplace s (S "「") [Char.ofNat 39]) (S "」") [Char.ofNat 39])
          (S "“") [Char.ofNat 39]))
      (by decide)) (by decide)) (by decide)
  · exact pyReplace_no_pattern 'T' (S "rue") (S "true") (by decide) (by decide) _
  · exact pyReplace_no_pattern 'F' (S "alse") (S "false") (by decide) (by decide) _
  · exact pyReplace_no_pattern 'N' (S "one") (S "null") (by decide) (by decide) _

end BWAI
